import Mathlib

/-!
# go-alexa `skillserver/echo.go`: request validation and response builder

A shallow embedding of `skillserver/echo.go`.

* Go `string` values are byte sequences (`GoString`); a string literal of the
  source is written `lit "..."`.
* The wall clock read by `time.Since` is an explicit argument.
* `time.Parse`, `time.Time.Sub` and `encoding/json` belong to the Go standard
  library; they are modelled here after their documented behaviour in current
  Go releases, for the one layout and the struct types this file uses.
* `json.Marshal` and `json.Unmarshal` are modelled on the JSON document, a value
  tree, that the bytes spell; the text form of a document (escapes, white space)
  is not.
-/

namespace Skillserver

/-! ## Go strings -/

/-- One byte of a Go string. -/
abbrev Byte := Fin 256

/-- Go `string`: an immutable sequence of bytes, not necessarily valid UTF-8. -/
abbrev GoString := List Byte

/-- Bytes of an ASCII string literal of the source. -/
def lit (s : String) : GoString := s.data.map (fun c => Fin.ofNat c.toNat)

/-- Go map with string keys: `none` is the nil map, `some` holds the entries.
Indexing reads the first entry stored under a key; a map built by Go holds at
most one entry per key (`GoMap.WF`). -/
abbrev GoMap (α : Type) := Option (List (GoString × α))

/-- Keys of a map (none for the nil map). -/
def GoMap.keys {α : Type} : GoMap α → List GoString
  | none => []
  | some es => es.map Prod.fst

/-- Go `v, ok := m[k]`: `none` stands for `ok == false`. -/
def GoMap.get? {α : Type} : GoMap α → GoString → Option α
  | none, _ => none
  | some es, k => es.lookup k

/-- Go `len(m)`. -/
def GoMap.len {α : Type} : GoMap α → Nat
  | none => 0
  | some es => es.length

/-- No key is stored twice. -/
def GoMap.WF {α : Type} (m : GoMap α) : Prop := m.keys.Nodup

instance {α : Type} (m : GoMap α) : Decidable m.WF :=
  inferInstanceAs (Decidable m.keys.Nodup)

/-- Dynamic value held in an `interface{}`: the kinds this package stores or
decodes, and `unsupported` for a value `encoding/json` cannot encode (a channel
or a function). `float64 n` is the float64 nearest to the integer `n`, which is
`n` itself up to 2^53 in magnitude; `slice` and `map` are non-nil. -/
inductive GoValue where
  | null
  | bool (b : Bool)
  | int (n : Int)
  | float64 (ofNumber : Int)
  | str (s : GoString)
  | slice (elems : List GoValue)
  | map (entries : List (GoString × GoValue))
  | unsupported

/-! ## `time`: instants, durations, parsing under `2006-01-02T15:04:05Z` -/

/-- Go `time.Duration`: a signed count of nanoseconds held in an int64. -/
abbrev Duration := Int

/-- Go `time.Second`. -/
def Second : Duration := 1000000000

/-- Smallest `time.Duration`, -2^63 ns. -/
def minDuration : Duration := -9223372036854775808

/-- Largest `time.Duration`, 2^63 - 1 ns. -/
def maxDuration : Duration := 9223372036854775807

/-- Go `time.Time` without monotonic reading: whole seconds elapsed since
January 1, year 1, 00:00:00 UTC and nanoseconds within the second. -/
structure Time where
  sec : Int
  nsec : Nat
  deriving DecidableEq

/-- Go `time.Time{}`: January 1, year 1, 00:00:00 UTC. -/
def zeroTime : Time := ⟨0, 0⟩

/-- Nanoseconds from the zero instant to `t`. -/
def Time.nanos (t : Time) : Int := t.sec * 1000000000 + t.nsec

/-- Go `t.Sub(u)`: the duration `t - u`, or the largest (smallest) duration when
the difference exceeds what a `Duration` holds. -/
def Time.Sub (t u : Time) : Duration :=
  let d := (t.sec - u.sec) * Second + ((t.nsec : Int) - (u.nsec : Int))
  if d < minDuration then minDuration
  else if maxDuration < d then maxDuration
  else d

/-- Reading of the system wall clock, as the runtime hands it to `time.Now`:
whole seconds and nanoseconds elapsed since the Unix epoch, January 1, 1970,
00:00:00 UTC, which a system clock does not precede. -/
structure WallClock where
  sec : Nat
  nsec : Nat
  deriving DecidableEq

/-- Seconds from January 1, year 1 to the Unix epoch (Go `unixToInternal`). -/
def unixToInternal : Int := 62135596800

/-- Go `time.Now()` on the clock reading `c`. -/
def Now (c : WallClock) : Time := ⟨c.sec + unixToInternal, c.nsec⟩

/-- Go `time.Since(t)` for a `t` without monotonic reading: `time.Now().Sub(t)`. -/
def Since (clock : WallClock) (t : Time) : Duration := (Now clock).Sub t

/-- Why `time.Parse` refused a value. -/
inductive ParseError where
  | errBad
  | outOfRange (what : String)
  | extraText
  deriving DecidableEq

/-- Go `isDigit` on one byte. -/
def isDigitByte (c : Byte) : Bool := decide (48 ≤ c.val) && decide (c.val ≤ 57)

/-- Value of a decimal digit byte. -/
def digitVal (c : Byte) : Nat := c.val - 48

/-- Go `getnum`: one or two decimal digits; exactly two when `fixed`. -/
def getnum (s : GoString) (fixed : Bool) : Except ParseError (Nat × GoString) :=
  match s with
  | [] => .error .errBad
  | c0 :: rest =>
    if isDigitByte c0 then
      match rest with
      | [] => if fixed then .error .errBad else .ok (digitVal c0, rest)
      | c1 :: rest1 =>
        if isDigitByte c1 then .ok (digitVal c0 * 10 + digitVal c1, rest1)
        else if fixed then .error .errBad
        else .ok (digitVal c0, rest)
    else .error .errBad

/-- Layout element `2006`: exactly four decimal digits. -/
def getYear (s : GoString) : Except ParseError (Nat × GoString) :=
  match s with
  | c0 :: c1 :: c2 :: c3 :: rest =>
    if isDigitByte c0 && isDigitByte c1 && isDigitByte c2 && isDigitByte c3 then
      .ok (digitVal c0 * 1000 + digitVal c1 * 100 + digitVal c2 * 10 + digitVal c3, rest)
    else .error .errBad
  | _ => .error .errBad

/-- Go `skip` for a one-byte literal of the layout. -/
def skipByte (s : GoString) (c : Byte) : Except ParseError GoString :=
  match s with
  | [] => .error .errBad
  | b :: rest => if b = c then .ok rest else .error .errBad

/-- Decimal value of a run of digit bytes. -/
def atoiDigits (ds : List Byte) : Nat := ds.foldl (fun acc c => acc * 10 + digitVal c) 0

/-- Fractional second that follows the seconds field although the layout has
none: a period or comma and at least one digit. All digits are consumed; the
first nine give the nanoseconds (Go `parseNanoseconds`). -/
def getFraction (s : GoString) : Nat × GoString :=
  match s with
  | sep :: d :: rest =>
    if (sep = 46 ∨ sep = 44) ∧ isDigitByte d = true then
      let digits := (d :: rest).takeWhile isDigitByte
      let used := digits.take 9
      (atoiDigits used * 10 ^ (9 - used.length), (d :: rest).dropWhile isDigitByte)
    else (0, s)
  | _ => (0, s)

/-- Go `isLeap`. -/
def isLeap (year : Nat) : Bool :=
  year % 4 == 0 && (year % 100 != 0 || year % 400 == 0)

/-- Go `daysIn`. -/
def daysIn (month year : Nat) : Nat :=
  if month = 2 then (if isLeap year then 29 else 28)
  else if month = 4 ∨ month = 6 ∨ month = 9 ∨ month = 11 then 30
  else 31

/-- Days of a non-leap year before the first of `month` (Go `daysBefore`). -/
def daysBefore (month : Nat) : Nat :=
  [0, 31, 59, 90, 120, 151, 181, 212, 243, 273, 304, 334].getD (month - 1) 0

/-- Days from January 1, year 1 to the given civil date of the proleptic
Gregorian calendar (negative in year 0). -/
def daysSinceYearOne (year month day : Nat) : Int :=
  ((365 * year + (year + 3) / 4 + (year + 399) / 400 : Nat) : Int) - ((year + 99) / 100 : Nat)
    - 366 + daysBefore month + (if isLeap year && decide (2 < month) then 1 else 0)
    + ((day : Int) - 1)

/-- Go `time.Date(year, month, day, hour, min, sec, nsec, time.UTC)` for
arguments already in range, as `Parse` passes them. -/
def Date (year month day hour min sec nsec : Nat) : Time :=
  ⟨daysSinceYearOne year month day * 86400 + hour * 3600 + min * 60 + sec, nsec⟩

/-- The fields `time.Parse` reads under the layout `2006-01-02T15:04:05Z`, in
layout order, with each range check where Go makes it. -/
def parseFields (value : GoString) : Except ParseError Time := do
  let (year, value) ← getYear value
  let value ← skipByte value 45
  let (month, value) ← getnum value true
  if month = 0 ∨ 12 < month then throw (.outOfRange "month")
  let value ← skipByte value 45
  let (day, value) ← getnum value true
  let value ← skipByte value 84
  let (hour, value) ← getnum value false
  if 24 ≤ hour then throw (.outOfRange "hour")
  let value ← skipByte value 58
  let (min, value) ← getnum value true
  if 60 ≤ min then throw (.outOfRange "minute")
  let value ← skipByte value 58
  let (sec, value) ← getnum value true
  if 60 ≤ sec then throw (.outOfRange "second")
  let (nsec, value) := getFraction value
  let value ← skipByte value 90
  if value ≠ [] then throw .extraText
  if day < 1 ∨ daysIn month year < day then throw (.outOfRange "day")
  return Date year month day hour min sec nsec

/-- Go `time.Parse("2006-01-02T15:04:05Z", value)`: the parsed instant and no
error, or the zero `Time` and the error. -/
def Parse (value : GoString) : Time × Option ParseError :=
  match parseFields value with
  | .ok t => (t, none)
  | .error e => (zeroTime, some e)

/-- Byte of the last decimal digit of `n`. -/
def digitByte (n : Nat) : Byte := Fin.ofNat (48 + n % 10)

/-- The text `YYYY-MM-DDTHH:MM:SSZ` of a civil date and time of day: zero-padded
decimal fields between the literal bytes of the layout. -/
def formatTimestamp (year month day hour min sec : Nat) : GoString :=
  [digitByte (year / 1000), digitByte (year / 100), digitByte (year / 10), digitByte year, 45,
   digitByte (month / 10), digitByte month, 45,
   digitByte (day / 10), digitByte day, 84,
   digitByte (hour / 10), digitByte hour, 58,
   digitByte (min / 10), digitByte min, 58,
   digitByte (sec / 10), digitByte sec, 90]

/-! ## Request types -/

/-- Anonymous struct `EchoSession.Application`. -/
structure EchoSessionApplication where
  ApplicationID : GoString := []

/-- Anonymous struct `EchoSession.User`. -/
structure EchoSessionUser where
  UserID : GoString := []
  AccessToken : GoString := []

/-- Go `EchoSession`. -/
structure EchoSession where
  New : Bool := false
  SessionID : GoString := []
  Application : EchoSessionApplication := {}
  Attributes : GoMap GoValue := none
  User : EchoSessionUser := {}

/-- Anonymous struct `EchoContext.System.Device`. -/
structure EchoContextDevice where
  DeviceId : GoString := []

/-- Anonymous struct `EchoContext.System.Application`. -/
structure EchoContextApplication where
  ApplicationID : GoString := []

/-- Anonymous struct `EchoContext.System.User.Permissions`. -/
structure EchoContextPermissions where
  ConsentToken : GoString := []

/-- Anonymous struct `EchoContext.System.User`. -/
structure EchoContextUser where
  AccessToken : GoString := []
  UserId : GoString := []
  Permissions : EchoContextPermissions := {}

/-- Anonymous struct `EchoContext.System`. -/
structure EchoContextSystem where
  ApiEndpoint : GoString := []
  ApiAccessToken : GoString := []
  Device : EchoContextDevice := {}
  Application : EchoContextApplication := {}
  User : EchoContextUser := {}

/-- Go `EchoContext`. -/
structure EchoContext where
  System : EchoContextSystem := {}

/-- Go `EchoSlot`. -/
structure EchoSlot where
  Name : GoString := []
  Value : GoString := []
  deriving DecidableEq

/-- Go `EchoIntent`. -/
structure EchoIntent where
  Name : GoString := []
  Slots : GoMap EchoSlot := none

/-- Go `EchoReqBody`; the field `Type` is written `Type_`. -/
structure EchoReqBody where
  Type_ : GoString := []
  RequestID : GoString := []
  Timestamp : GoString := []
  Intent : EchoIntent := {}
  Reason : GoString := []
  Message : GoMap GoString := none
  Locale : GoString := []

/-- Go `EchoRequest`; the default is the zero value. -/
structure EchoRequest where
  Version : GoString := []
  Session : EchoSession := {}
  Request : EchoReqBody := {}
  Context : EchoContext := {}

/-- Go `error` built by `errors.New`: its message. -/
abbrev GoError := GoString

/-! ## Request functions -/

/-- Go `(*EchoRequest).VerifyTimestamp`; `clock` is what `time.Since` reads
from the system clock. The error of `time.Parse` is discarded. -/
def EchoRequest.VerifyTimestamp (this : EchoRequest) (clock : WallClock) : Bool :=
  let reqTimestamp := (Parse this.Request.Timestamp).1
  if Since clock reqTimestamp < (150 : Duration) * Second then
    true
  else
    false

/-- Go `(*EchoRequest).VerifyAppID`. -/
def EchoRequest.VerifyAppID (this : EchoRequest) (myAppID : GoString) : Bool :=
  if this.Session.Application.ApplicationID = myAppID ∨
      this.Context.System.Application.ApplicationID = myAppID then
    true
  else
    false

/-- Go `(*EchoRequest).GetSessionID`. -/
def EchoRequest.GetSessionID (this : EchoRequest) : GoString :=
  this.Session.SessionID

/-- Go `(*EchoRequest).GetUserID`. -/
def EchoRequest.GetUserID (this : EchoRequest) : GoString :=
  let uid := this.Session.User.UserID
  if uid = [] then this.Context.System.User.UserId else uid

/-- Go `(*EchoRequest).GetRequestType`. -/
def EchoRequest.GetRequestType (this : EchoRequest) : GoString :=
  this.Request.Type_

/-- Go `(*EchoRequest).GetIntentName`. -/
def EchoRequest.GetIntentName (this : EchoRequest) : GoString :=
  if this.GetRequestType = lit "IntentRequest" then
    this.Request.Intent.Name
  else
    this.GetRequestType

/-- Go `(*EchoRequest).GetSlotValue`: the value and a nil error, or the empty
string and the error. -/
def EchoRequest.GetSlotValue (this : EchoRequest) (slotName : GoString) :
    GoString × Option GoError :=
  match this.Request.Intent.Slots.get? slotName with
  | some slot => (slot.Value, none)
  | none => ([], some (lit "Slot name not found."))

/-- Go `(*EchoRequest).AllSlots`. -/
def EchoRequest.AllSlots (this : EchoRequest) : GoMap EchoSlot :=
  this.Request.Intent.Slots

/-! ## Response types -/

/-- Go `EchoRespImage`. -/
structure EchoRespImage where
  SmallImageURL : GoString := []
  LargeImageURL : GoString := []
  deriving DecidableEq

/-- Go `EchoRespPayload`; the field `Type` is written `Type_`. -/
structure EchoRespPayload where
  Type_ : GoString := []
  Title : GoString := []
  Text : GoString := []
  SSML : GoString := []
  Content : GoString := []
  Image : EchoRespImage := {}
  deriving DecidableEq

/-- Go `EchoReprompt`. -/
structure EchoReprompt where
  OutputSpeech : EchoRespPayload := {}
  deriving DecidableEq

/-- Go `CanFulfillIntentAnswer`, a string type. -/
abbrev CanFulfillIntentAnswer := GoString

/-- Go `CanFulfillIntentSlot`. -/
structure CanFulfillIntentSlot where
  CanUnderstand : CanFulfillIntentAnswer := []
  CanFulfill : CanFulfillIntentAnswer := []
  deriving DecidableEq

/-- Go `CanFulfillIntentPayload`. -/
structure CanFulfillIntentPayload where
  CanFulfill : CanFulfillIntentAnswer := []
  Slots : GoMap CanFulfillIntentSlot := none
  deriving DecidableEq

/-- Go `Directive`, a `map[string]interface{}`. -/
abbrev Directive := GoMap GoValue

/-- Go `EchoRespBody`. A nil pointer is `none`; the nil slice is `none`. -/
structure EchoRespBody where
  OutputSpeech : Option EchoRespPayload := none
  Card : Option EchoRespPayload := none
  Reprompt : Option EchoReprompt := none
  ShouldEndSession : Option Bool := none
  Directives : Option (List Directive) := none
  CanFulfillIntent : Option CanFulfillIntentPayload := none

/-- Go `EchoResponse`; the default is the zero value. -/
structure EchoResponse where
  Version : GoString := []
  SessionAttributes : GoMap GoValue := none
  Response : EchoRespBody := {}

/-- Go `AudioPlayerPlayBehavior`, a string type. -/
abbrev AudioPlayerPlayBehavior := GoString

/-- Go constant `ReplaceAll`. -/
def ReplaceAll : AudioPlayerPlayBehavior := lit "REPLACE_ALL"

/-- Go constant `Enqueue`. -/
def Enqueue : AudioPlayerPlayBehavior := lit "ENQUEUE"

/-- Go constant `ReplaceEnqueued`. -/
def ReplaceEnqueued : AudioPlayerPlayBehavior := lit "REPLACE_ENQUEUED"

/-- Go `AudioPlayerClearQueueBehavior`, a string type. -/
abbrev AudioPlayerClearQueueBehavior := GoString

/-- Go constant `ClearEnqueued`. -/
def ClearEnqueued : AudioPlayerClearQueueBehavior := lit "CLEAR_ENQUEUED"

/-- Go constant `ClearAll`. -/
def ClearAll : AudioPlayerClearQueueBehavior := lit "CLEAR_ALL"

/-- Go `append(s, x)` on a possibly nil slice. -/
def goAppend {α : Type} (s : Option (List α)) (x : α) : Option (List α) :=
  some (s.getD [] ++ [x])

/-- Go `m[k] = v` on the entries of a non-nil map. -/
def setEntry {α : Type} : List (GoString × α) → GoString → α → List (GoString × α)
  | [], k, v => [(k, v)]
  | (k0, v0) :: es, k, v => if k0 = k then (k, v) :: es else (k0, v0) :: setEntry es k v

/-! ## Response functions -/

/-- Go `NewEchoResponse`. -/
def NewEchoResponse : EchoResponse :=
  let trueBool := true
  { Version := lit "1.0",
    Response := { ShouldEndSession := some trueBool, Directives := some [] },
    SessionAttributes := some [] }

/-- Go `(*EchoResponse).OutputSpeech`. -/
def EchoResponse.OutputSpeech (this : EchoResponse) (text : GoString) : EchoResponse :=
  { this with Response := { this.Response with
      OutputSpeech := some { Type_ := lit "PlainText", Text := text } } }

/-- Go `(*EchoResponse).OutputSpeechSSML`. -/
def EchoResponse.OutputSpeechSSML (this : EchoResponse) (text : GoString) : EchoResponse :=
  { this with Response := { this.Response with
      OutputSpeech := some { Type_ := lit "SSML", SSML := text } } }

/-- Go `(*EchoResponse).SimpleCard`. -/
def EchoResponse.SimpleCard (this : EchoResponse) (title content : GoString) : EchoResponse :=
  { this with Response := { this.Response with
      Card := some { Type_ := lit "Simple", Title := title, Content := content } } }

/-- Go `(*EchoResponse).Card`. -/
def EchoResponse.Card (this : EchoResponse) (title content : GoString) : EchoResponse :=
  this.SimpleCard title content

/-- Go `(*EchoResponse).StandardCard`. -/
def EchoResponse.StandardCard (this : EchoResponse)
    (title content smallImg largeImg : GoString) : EchoResponse :=
  let card : EchoRespPayload := { Type_ := lit "Standard", Title := title, Content := content }
  let card := if smallImg ≠ [] then
      { card with Image := { card.Image with SmallImageURL := smallImg } } else card
  let card := if largeImg ≠ [] then
      { card with Image := { card.Image with LargeImageURL := largeImg } } else card
  { this with Response := { this.Response with Card := some card } }

/-- Go `(*EchoResponse).LinkAccountCard`. -/
def EchoResponse.LinkAccountCard (this : EchoResponse) : EchoResponse :=
  { this with Response := { this.Response with
      Card := some { Type_ := lit "LinkAccount" } } }

/-- Go `(*EchoResponse).Reprompt`. -/
def EchoResponse.Reprompt (this : EchoResponse) (text : GoString) : EchoResponse :=
  { this with Response := { this.Response with
      Reprompt := some { OutputSpeech := { Type_ := lit "PlainText", Text := text } } } }

/-- Go `(*EchoResponse).RepromptSSML`. -/
def EchoResponse.RepromptSSML (this : EchoResponse) (text : GoString) : EchoResponse :=
  { this with Response := { this.Response with
      Reprompt := some { OutputSpeech := { Type_ := lit "SSML", Text := text } } } }

/-- Go `(*EchoResponse).EndSession`. -/
def EchoResponse.EndSession (this : EchoResponse) (flag : Bool) : EchoResponse :=
  { this with Response := { this.Response with ShouldEndSession := some flag } }

/-- Go `(*EchoResponse).AudioPlayerPlay`; `prevToken` is `none` for a nil
pointer. -/
def EchoResponse.AudioPlayerPlay (this : EchoResponse) (behavior : AudioPlayerPlayBehavior)
    (streamUrl token : GoString) (prevToken : Option GoString) (offsetMs : Int) :
    EchoResponse :=
  let streamObj : List (GoString × GoValue) :=
    [(lit "url", .str streamUrl),
     (lit "token", .str token),
     (lit "offsetInMilliseconds", .int offsetMs)]
  let streamObj := match prevToken with
    | some p => setEntry streamObj (lit "expectedPreviousToken") (.str p)
    | none => streamObj
  let directive : Directive := some
    [(lit "type", .str (lit "AudioPlayer.Play")),
     (lit "playBehavior", .str behavior),
     (lit "audioItem", .map [(lit "stream", .map streamObj)])]
  { this with Response := { this.Response with
      Directives := goAppend this.Response.Directives directive } }

/-- Go `(*EchoResponse).AudioPlayerStop`. -/
def EchoResponse.AudioPlayerStop (this : EchoResponse) : EchoResponse :=
  let directive : Directive := some [(lit "type", .str (lit "AudioPlayer.Stop"))]
  { this with Response := { this.Response with
      Directives := goAppend this.Response.Directives directive } }

/-- Go `(*EchoResponse).AudioPlayerClearQueue`. -/
def EchoResponse.AudioPlayerClearQueue (this : EchoResponse)
    (clearBehavior : AudioPlayerClearQueueBehavior) : EchoResponse :=
  let directive : Directive := some
    [(lit "type", .str (lit "AudioPlayer.ClearQueue")),
     (lit "clearBehavior", .str clearBehavior)]
  { this with Response := { this.Response with
      Directives := goAppend this.Response.Directives directive } }

/-- Go `(*EchoResponse).VideoAppLaunch`. -/
def EchoResponse.VideoAppLaunch (this : EchoResponse)
    (streamUrl title subtitle : GoString) : EchoResponse :=
  let videoItemObj : List (GoString × GoValue) := [(lit "source", .str streamUrl)]
  let videoItemObj := if title ≠ [] ∨ subtitle ≠ [] then
      setEntry videoItemObj (lit "metadata")
        (.map [(lit "title", .str title), (lit "subtitle", .str subtitle)])
    else videoItemObj
  let directive : Directive := some
    [(lit "type", .str (lit "VideoApp.Launch")),
     (lit "videoItem", .map videoItemObj)]
  { this with Response := { this.Response with
      Directives := goAppend this.Response.Directives directive } }

/-! ## `unicode/utf8`: what `encoding/json` does to a string that is not UTF-8 -/

/-- For a leading byte of a multi-byte encoding: the encoding's size and the
range its second byte must lie in (Go `first` and `acceptRanges`). -/
def leadInfo (b0 : Byte) : Option (Nat × Nat × Nat) :=
  if 0xC2 ≤ b0.val ∧ b0.val ≤ 0xDF then some (2, 0x80, 0xBF)
  else if b0.val = 0xE0 then some (3, 0xA0, 0xBF)
  else if b0.val = 0xED then some (3, 0x80, 0x9F)
  else if 0xE1 ≤ b0.val ∧ b0.val ≤ 0xEF then some (3, 0x80, 0xBF)
  else if b0.val = 0xF0 then some (4, 0x90, 0xBF)
  else if 0xF1 ≤ b0.val ∧ b0.val ≤ 0xF3 then some (4, 0x80, 0xBF)
  else if b0.val = 0xF4 then some (4, 0x80, 0x8F)
  else none

/-- Continuation byte `0x80..0xBF`. -/
def isCont (b : Byte) : Bool := decide (0x80 ≤ b.val) && decide (b.val ≤ 0xBF)

/-- Size of the valid UTF-8 encoding that starts the string, or `none` where Go
`utf8.DecodeRuneInString` returns `(RuneError, 1)` or the string is empty. -/
def runeWidth : GoString → Option Nat
  | [] => none
  | b0 :: rest =>
    if b0.val < 0x80 then some 1
    else match leadInfo b0 with
      | none => none
      | some (size, lo, hi) =>
        match rest with
        | [] => none
        | b1 :: rest1 =>
          if lo ≤ b1.val ∧ b1.val ≤ hi then
            if size = 2 then some 2
            else match rest1 with
              | [] => none
              | b2 :: rest2 =>
                if isCont b2 then
                  if size = 3 then some 3
                  else match rest2 with
                    | [] => none
                    | b3 :: _ => if isCont b3 then some 4 else none
                else none
          else none

/-- Go `utf8.ValidString`, reading left to right; `skip` counts the bytes still
to pass of the encoding in progress. -/
def validFrom : Nat → GoString → Bool
  | _, [] => true
  | skip + 1, _ :: rest => validFrom skip rest
  | 0, b :: rest =>
    match runeWidth (b :: rest) with
    | some w => validFrom (w - 1) rest
    | none => false

/-- Go `utf8.ValidString`. -/
def ValidString (s : GoString) : Bool := validFrom 0 s

/-- Copy of the string in which each byte that starts no valid encoding is
replaced by the encoding `EF BF BD` of U+FFFD; `skip` as in `validFrom`. -/
def coerceFrom : Nat → GoString → GoString
  | _, [] => []
  | skip + 1, b :: rest => b :: coerceFrom skip rest
  | 0, b :: rest =>
    match runeWidth (b :: rest) with
    | some w => b :: coerceFrom (w - 1) rest
    | none => 0xEF :: 0xBF :: 0xBD :: coerceFrom 0 rest

/-- The text `encoding/json` writes for a Go string: "coerced to valid UTF-8,
replacing invalid bytes with the Unicode replacement rune". -/
def toValidUTF8 (s : GoString) : GoString := coerceFrom 0 s

/-! ## `encoding/json`: documents -/

/-- JSON document, as a value tree: the model of the bytes `json.Marshal`
returns and `json.Unmarshal` reads. Object members keep their order of
appearance; numbers are integers, the only numbers this package encodes; a
string holds the text between the quotes after unescaping. -/
inductive JSON where
  | null
  | bool (b : Bool)
  | num (n : Int)
  | str (s : GoString)
  | arr (elems : List JSON)
  | obj (members : List (GoString × JSON))

/-- Go `json.UnsupportedTypeError`. -/
inductive MarshalError where
  | unsupportedType
  deriving DecidableEq

/-- Go `json.UnmarshalTypeError`. -/
inductive UnmarshalError where
  | typeError
  deriving DecidableEq

/-- Value stored under the first member called `k`. -/
def JSON.member? : JSON → GoString → Option JSON
  | .obj ms, k => ms.lookup k
  | _, _ => none

/-- Member names of an object, in order of appearance. -/
def JSON.keys : JSON → List GoString
  | .obj ms => ms.map Prod.fst
  | _ => []

/-- Byte-wise lexicographic `a <= b`, the order of Go string comparison. -/
def bytesLe : GoString → GoString → Bool
  | [], _ => true
  | _ :: _, [] => false
  | a :: as, b :: bs => decide (a.val < b.val) || (decide (a = b) && bytesLe as bs)

/-- Insert a member into a list sorted by key. -/
def insertMember {α : Type} (x : GoString × α) : List (GoString × α) → List (GoString × α)
  | [] => [x]
  | y :: ys => if bytesLe x.1 y.1 then x :: y :: ys else y :: insertMember x ys

/-- Members sorted by key, as `json.Marshal` writes the entries of a map. -/
def sortMembers {α : Type} : List (GoString × α) → List (GoString × α)
  | [] => []
  | x :: xs => insertMember x (sortMembers xs)

/-- A JSON object for the entries of a Go map: sorted by key, keys written as
JSON strings. -/
def mapObject (members : List (GoString × JSON)) : JSON :=
  .obj ((sortMembers members).map (fun kv => (toValidUTF8 kv.1, kv.2)))

/-! ## `json.Marshal` of an `EchoResponse` -/

mutual
/-- Go `json.Marshal` of a value held in an `interface{}`. -/
def marshalValue : GoValue → Except MarshalError JSON
  | .null => .ok .null
  | .bool b => .ok (.bool b)
  | .int n => .ok (.num n)
  | .float64 n => .ok (.num n)
  | .str s => .ok (.str (toValidUTF8 s))
  | .slice elems => (marshalValues elems).map JSON.arr
  | .map entries => (marshalEntries entries).map mapObject
  | .unsupported => .error .unsupportedType
/-- Elements of a slice, in order. -/
def marshalValues : List GoValue → Except MarshalError (List JSON)
  | [] => .ok []
  | v :: vs => do
    let j ← marshalValue v
    let js ← marshalValues vs
    pure (j :: js)
/-- Entries of a map, each value encoded. -/
def marshalEntries : List (GoString × GoValue) → Except MarshalError (List (GoString × JSON))
  | [] => .ok []
  | (k, v) :: es => do
    let j ← marshalValue v
    let js ← marshalEntries es
    pure ((k, j) :: js)
end

/-- Go `json.Marshal` of a `map[string]interface{}`: `null` for the nil map. -/
def marshalMap : GoMap GoValue → Except MarshalError JSON
  | none => .ok .null
  | some entries => (marshalEntries entries).map mapObject

/-- A string field tagged `omitempty`: no member when the string is empty. -/
def omitEmptyString (name : GoString) (s : GoString) : List (GoString × JSON) :=
  if s = [] then [] else [(name, .str (toValidUTF8 s))]

/-- A pointer field tagged `omitempty`: no member when the pointer is nil. -/
def omitNil (name : GoString) (j : Option JSON) : List (GoString × JSON) :=
  match j with
  | none => []
  | some v => [(name, v)]

/-- Go `json.Marshal` of an `EchoRespImage`. -/
def marshalImage (i : EchoRespImage) : JSON :=
  .obj (omitEmptyString (lit "smallImageUrl") i.SmallImageURL ++
        omitEmptyString (lit "largeImageUrl") i.LargeImageURL)

/-- Go `json.Marshal` of an `EchoRespPayload`. `omitempty` never omits a struct,
so `image` is always written. -/
def marshalPayload (p : EchoRespPayload) : JSON :=
  .obj (omitEmptyString (lit "type") p.Type_ ++
        omitEmptyString (lit "title") p.Title ++
        omitEmptyString (lit "text") p.Text ++
        omitEmptyString (lit "ssml") p.SSML ++
        omitEmptyString (lit "content") p.Content ++
        [(lit "image", marshalImage p.Image)])

/-- Go `json.Marshal` of an `EchoReprompt`. -/
def marshalReprompt (r : EchoReprompt) : JSON :=
  .obj [(lit "outputSpeech", marshalPayload r.OutputSpeech)]

/-- Go `json.Marshal` of a `CanFulfillIntentSlot`. -/
def marshalSlot (s : CanFulfillIntentSlot) : JSON :=
  .obj [(lit "canUnderstand", .str (toValidUTF8 s.CanUnderstand)),
        (lit "canFulfill", .str (toValidUTF8 s.CanFulfill))]

/-- Go `json.Marshal` of a `CanFulfillIntentPayload`. -/
def marshalCanFulfill (c : CanFulfillIntentPayload) : JSON :=
  .obj ([(lit "canFulfill", .str (toValidUTF8 c.CanFulfill))] ++
        (if c.Slots.len = 0 then []
         else [(lit "slots",
                mapObject ((c.Slots.getD []).map (fun kv => (kv.1, marshalSlot kv.2))))]))

/-- Go `json.Marshal` of a `[]Directive`: `null` for the nil slice. -/
def marshalDirectives : Option (List Directive) → Except MarshalError JSON
  | none => .ok .null
  | some ds => (ds.mapM marshalMap).map JSON.arr

/-- Go `json.Marshal` of an `EchoRespBody`. -/
def marshalBody (b : EchoRespBody) : Except MarshalError JSON := do
  let directives ← marshalDirectives b.Directives
  pure (.obj (
    omitNil (lit "outputSpeech") (b.OutputSpeech.map marshalPayload) ++
    omitNil (lit "card") (b.Card.map marshalPayload) ++
    omitNil (lit "reprompt") (b.Reprompt.map marshalReprompt) ++
    omitNil (lit "shouldEndSession") (b.ShouldEndSession.map JSON.bool) ++
    [(lit "directives", directives)] ++
    omitNil (lit "canFulfillIntent") (b.CanFulfillIntent.map marshalCanFulfill)))

/-- Go `json.Marshal` of an `*EchoResponse`. -/
def Marshal (r : EchoResponse) : Except MarshalError JSON := do
  let attrs ← if r.SessionAttributes.len = 0 then pure []
    else (marshalMap r.SessionAttributes).map (fun j => [(lit "sessionAttributes", j)])
  let body ← marshalBody r.Response
  pure (.obj ([(lit "version", .str (toValidUTF8 r.Version))] ++ attrs ++
              [(lit "response", body)]))

/-- Go `(*EchoResponse).String`: the document, or the error of `json.Marshal`. -/
def EchoResponse.String (this : EchoResponse) : Except MarshalError JSON :=
  match Marshal this with
  | .error err => .error err
  | .ok jsonStr => .ok jsonStr

/-! ## `json.Unmarshal` into an `EchoResponse` -/

/-- Key of a JSON member folded for the case-insensitive match against the
ASCII field names of these structs: ASCII letters to upper case, and the two
other runes whose simple case folding is an ASCII letter, U+017F (`C5 BF`) to
`S` and U+212A (`E2 84 AA`) to `K`; `skip` counts the bytes still to pass of the
rune just folded. -/
def foldFrom : Nat → GoString → GoString
  | _, [] => []
  | skip + 1, _ :: rest => foldFrom skip rest
  | 0, b :: rest =>
    if b.val = 0xC5 ∧ rest.head? = some 0xBF then 0x53 :: foldFrom 1 rest
    else if b.val = 0xE2 ∧ rest.head? = some 0x84 ∧ rest.tail.head? = some 0xAA then
      0x4B :: foldFrom 2 rest
    else (if 0x61 ≤ b.val ∧ b.val ≤ 0x7A then b - 32 else b) :: foldFrom 0 rest

/-- Folded key; two keys match ignoring case when their folded keys are equal. -/
def foldKey (key : GoString) : GoString := foldFrom 0 key

/-- Struct field a member key selects: the field of that exact name, else the
first field whose name matches ignoring case, else none (the member is
skipped). -/
def fieldFor (names : List GoString) (key : GoString) : Option GoString :=
  match names.find? (fun n => decide (n = key)) with
  | some n => some n
  | none => names.find? (fun n => decide (foldKey n = foldKey key))

mutual
/-- Go `json.Unmarshal` into an `interface{}`. -/
def decodeValue : JSON → GoValue
  | .null => .null
  | .bool b => .bool b
  | .num n => .float64 n
  | .str s => .str s
  | .arr elems => .slice (decodeValues elems)
  | .obj members => .map ((decodeMembers members).foldl (fun m kv => setEntry m kv.1 kv.2) [])
/-- Elements of an array, in order. -/
def decodeValues : List JSON → List GoValue
  | [] => []
  | j :: js => decodeValue j :: decodeValues js
/-- Members of an object, each value decoded. -/
def decodeMembers : List (GoString × JSON) → List (GoString × GoValue)
  | [] => []
  | (k, j) :: ms => (k, decodeValue j) :: decodeMembers ms
end

/-- Decode into a `string`: `null` leaves it as it is. -/
def decodeString (cur : GoString) : JSON → Except UnmarshalError GoString
  | .null => .ok cur
  | .str s => .ok s
  | _ => .error .typeError

/-- Decode into a `*bool`: `null` sets the pointer to nil. -/
def decodeBoolPtr : JSON → Except UnmarshalError (Option Bool)
  | .null => .ok none
  | .bool b => .ok (some b)
  | _ => .error .typeError

/-- Decode into a `map[string]interface{}`: `null` sets the nil map, an object
adds its members to the entries already there. -/
def decodeMap (cur : GoMap GoValue) : JSON → Except UnmarshalError (GoMap GoValue)
  | .null => .ok none
  | .obj members =>
    .ok (some ((decodeMembers members).foldl (fun m kv => setEntry m kv.1 kv.2) (cur.getD [])))
  | _ => .error .typeError

/-- Decode the elements of an array into a `[]Directive`, element by element
into the elements already there. -/
def decodeDirectiveList : List Directive → List JSON → Except UnmarshalError (List Directive)
  | _, [] => .ok []
  | [], j :: js => do
    let d ← decodeMap none j
    let ds ← decodeDirectiveList [] js
    pure (d :: ds)
  | c :: cs, j :: js => do
    let d ← decodeMap c j
    let ds ← decodeDirectiveList cs js
    pure (d :: ds)

/-- Decode into a `[]Directive`: `null` sets the nil slice, an empty array the
empty slice. -/
def decodeDirectives (cur : Option (List Directive)) :
    JSON → Except UnmarshalError (Option (List Directive))
  | .null => .ok none
  | .arr elems => (decodeDirectiveList (cur.getD []) elems).map some
  | _ => .error .typeError

/-- Decode one member into an `EchoRespImage`. -/
def decodeImageMember (cur : EchoRespImage) (kv : GoString × JSON) :
    Except UnmarshalError EchoRespImage :=
  match fieldFor [lit "smallImageUrl", lit "largeImageUrl"] kv.1 with
  | none => .ok cur
  | some f =>
    if f = lit "smallImageUrl" then
      (decodeString cur.SmallImageURL kv.2).map (fun s => { cur with SmallImageURL := s })
    else
      (decodeString cur.LargeImageURL kv.2).map (fun s => { cur with LargeImageURL := s })

/-- Decode into an `EchoRespImage`. -/
def decodeImage (cur : EchoRespImage) : JSON → Except UnmarshalError EchoRespImage
  | .null => .ok cur
  | .obj members => members.foldlM decodeImageMember cur
  | _ => .error .typeError

/-- Decode one member into an `EchoRespPayload`. -/
def decodePayloadMember (cur : EchoRespPayload) (kv : GoString × JSON) :
    Except UnmarshalError EchoRespPayload :=
  match fieldFor [lit "type", lit "title", lit "text", lit "ssml", lit "content",
      lit "image"] kv.1 with
  | none => .ok cur
  | some f =>
    if f = lit "type" then
      (decodeString cur.Type_ kv.2).map (fun s => { cur with Type_ := s })
    else if f = lit "title" then
      (decodeString cur.Title kv.2).map (fun s => { cur with Title := s })
    else if f = lit "text" then
      (decodeString cur.Text kv.2).map (fun s => { cur with Text := s })
    else if f = lit "ssml" then
      (decodeString cur.SSML kv.2).map (fun s => { cur with SSML := s })
    else if f = lit "content" then
      (decodeString cur.Content kv.2).map (fun s => { cur with Content := s })
    else
      (decodeImage cur.Image kv.2).map (fun i => { cur with Image := i })

/-- Decode into an `EchoRespPayload`. -/
def decodePayload (cur : EchoRespPayload) : JSON → Except UnmarshalError EchoRespPayload
  | .null => .ok cur
  | .obj members => members.foldlM decodePayloadMember cur
  | _ => .error .typeError

/-- Decode into an `*EchoRespPayload`: `null` sets nil, otherwise a nil pointer
is first pointed at a zero struct. -/
def decodePayloadPtr (cur : Option EchoRespPayload) :
    JSON → Except UnmarshalError (Option EchoRespPayload)
  | .null => .ok none
  | j => (decodePayload (cur.getD {}) j).map some

/-- Decode one member into an `EchoReprompt`. -/
def decodeRepromptMember (cur : EchoReprompt) (kv : GoString × JSON) :
    Except UnmarshalError EchoReprompt :=
  match fieldFor [lit "outputSpeech"] kv.1 with
  | none => .ok cur
  | some _ => (decodePayload cur.OutputSpeech kv.2).map (fun p => { cur with OutputSpeech := p })

/-- Decode into an `*EchoReprompt`. -/
def decodeRepromptPtr (cur : Option EchoReprompt) :
    JSON → Except UnmarshalError (Option EchoReprompt)
  | .null => .ok none
  | .obj members => (members.foldlM decodeRepromptMember (cur.getD {})).map some
  | _ => .error .typeError

/-- Decode one member into a `CanFulfillIntentSlot`. -/
def decodeSlotMember (cur : CanFulfillIntentSlot) (kv : GoString × JSON) :
    Except UnmarshalError CanFulfillIntentSlot :=
  match fieldFor [lit "canUnderstand", lit "canFulfill"] kv.1 with
  | none => .ok cur
  | some f =>
    if f = lit "canUnderstand" then
      (decodeString cur.CanUnderstand kv.2).map (fun s => { cur with CanUnderstand := s })
    else
      (decodeString cur.CanFulfill kv.2).map (fun s => { cur with CanFulfill := s })

/-- Decode into a `CanFulfillIntentSlot`. -/
def decodeSlot (cur : CanFulfillIntentSlot) : JSON → Except UnmarshalError CanFulfillIntentSlot
  | .null => .ok cur
  | .obj members => members.foldlM decodeSlotMember cur
  | _ => .error .typeError

/-- Decode into a `map[string]CanFulfillIntentSlot`: each value is decoded into
a zero struct and stored under its key. -/
def decodeSlots (cur : GoMap CanFulfillIntentSlot) :
    JSON → Except UnmarshalError (GoMap CanFulfillIntentSlot)
  | .null => .ok none
  | .obj members =>
    (members.foldlM (fun m kv => (decodeSlot {} kv.2).map (fun s => setEntry m kv.1 s))
      (cur.getD [])).map some
  | _ => .error .typeError

/-- Decode one member into a `CanFulfillIntentPayload`. -/
def decodeCanFulfillMember (cur : CanFulfillIntentPayload) (kv : GoString × JSON) :
    Except UnmarshalError CanFulfillIntentPayload :=
  match fieldFor [lit "canFulfill", lit "slots"] kv.1 with
  | none => .ok cur
  | some f =>
    if f = lit "canFulfill" then
      (decodeString cur.CanFulfill kv.2).map (fun s => { cur with CanFulfill := s })
    else
      (decodeSlots cur.Slots kv.2).map (fun m => { cur with Slots := m })

/-- Decode into a `*CanFulfillIntentPayload`. -/
def decodeCanFulfillPtr (cur : Option CanFulfillIntentPayload) :
    JSON → Except UnmarshalError (Option CanFulfillIntentPayload)
  | .null => .ok none
  | .obj members => (members.foldlM decodeCanFulfillMember (cur.getD {})).map some
  | _ => .error .typeError

/-- Decode one member into an `EchoRespBody`. -/
def decodeBodyMember (cur : EchoRespBody) (kv : GoString × JSON) :
    Except UnmarshalError EchoRespBody :=
  match fieldFor [lit "outputSpeech", lit "card", lit "reprompt", lit "shouldEndSession",
      lit "directives", lit "canFulfillIntent"] kv.1 with
  | none => .ok cur
  | some f =>
    if f = lit "outputSpeech" then
      (decodePayloadPtr cur.OutputSpeech kv.2).map (fun p => { cur with OutputSpeech := p })
    else if f = lit "card" then
      (decodePayloadPtr cur.Card kv.2).map (fun p => { cur with Card := p })
    else if f = lit "reprompt" then
      (decodeRepromptPtr cur.Reprompt kv.2).map (fun p => { cur with Reprompt := p })
    else if f = lit "shouldEndSession" then
      (decodeBoolPtr kv.2).map (fun b => { cur with ShouldEndSession := b })
    else if f = lit "directives" then
      (decodeDirectives cur.Directives kv.2).map (fun d => { cur with Directives := d })
    else
      (decodeCanFulfillPtr cur.CanFulfillIntent kv.2).map
        (fun c => { cur with CanFulfillIntent := c })

/-- Decode into an `EchoRespBody`. -/
def decodeBody (cur : EchoRespBody) : JSON → Except UnmarshalError EchoRespBody
  | .null => .ok cur
  | .obj members => members.foldlM decodeBodyMember cur
  | _ => .error .typeError

/-- Decode one member into an `EchoResponse`. -/
def decodeResponseMember (cur : EchoResponse) (kv : GoString × JSON) :
    Except UnmarshalError EchoResponse :=
  match fieldFor [lit "version", lit "sessionAttributes", lit "response"] kv.1 with
  | none => .ok cur
  | some f =>
    if f = lit "version" then
      (decodeString cur.Version kv.2).map (fun s => { cur with Version := s })
    else if f = lit "sessionAttributes" then
      (decodeMap cur.SessionAttributes kv.2).map (fun m => { cur with SessionAttributes := m })
    else
      (decodeBody cur.Response kv.2).map (fun b => { cur with Response := b })

/-- Go `json.Unmarshal(data, &r)` for a zero `var r EchoResponse`: the decoded
envelope, or the type error. Slice capacity is not modelled. -/
def Unmarshal : JSON → Except UnmarshalError EchoResponse
  | .null => .ok {}
  | .obj members => members.foldlM decodeResponseMember {}
  | _ => .error .typeError

/-! ## Sequences of builder operations -/

/-- One call of a mutation method of `*EchoResponse`, with its arguments. -/
inductive BuilderOp where
  | outputSpeech (text : GoString)
  | card (title content : GoString)
  | outputSpeechSSML (text : GoString)
  | simpleCard (title content : GoString)
  | standardCard (title content smallImg largeImg : GoString)
  | linkAccountCard
  | reprompt (text : GoString)
  | repromptSSML (text : GoString)
  | endSession (flag : Bool)
  | audioPlayerPlay (behavior : AudioPlayerPlayBehavior) (streamUrl token : GoString)
      (prevToken : Option GoString) (offsetMs : Int)
  | audioPlayerStop
  | audioPlayerClearQueue (clearBehavior : AudioPlayerClearQueueBehavior)
  | videoAppLaunch (streamUrl title subtitle : GoString)

/-- The method call on the response `r`. -/
def BuilderOp.apply (op : BuilderOp) (r : EchoResponse) : EchoResponse :=
  match op with
  | .outputSpeech text => r.OutputSpeech text
  | .card title content => r.Card title content
  | .outputSpeechSSML text => r.OutputSpeechSSML text
  | .simpleCard title content => r.SimpleCard title content
  | .standardCard title content smallImg largeImg =>
    r.StandardCard title content smallImg largeImg
  | .linkAccountCard => r.LinkAccountCard
  | .reprompt text => r.Reprompt text
  | .repromptSSML text => r.RepromptSSML text
  | .endSession flag => r.EndSession flag
  | .audioPlayerPlay behavior streamUrl token prevToken offsetMs =>
    r.AudioPlayerPlay behavior streamUrl token prevToken offsetMs
  | .audioPlayerStop => r.AudioPlayerStop
  | .audioPlayerClearQueue clearBehavior => r.AudioPlayerClearQueue clearBehavior
  | .videoAppLaunch streamUrl title subtitle => r.VideoAppLaunch streamUrl title subtitle

/-- Field of `EchoRespBody` that a mutation method assigns. -/
inductive BodyField where
  | outputSpeech
  | card
  | reprompt
  | shouldEndSession
  | directives
  deriving DecidableEq

/-- The field a method assigns: the speech setters `OutputSpeech`, the card
setters `Card`, the reprompt setters `Reprompt`, `EndSession` the flag, the four
directive methods `Directives`. -/
def BuilderOp.field : BuilderOp → BodyField
  | .outputSpeech _ => .outputSpeech
  | .outputSpeechSSML _ => .outputSpeech
  | .card _ _ => .card
  | .simpleCard _ _ => .card
  | .standardCard _ _ _ _ => .card
  | .linkAccountCard => .card
  | .reprompt _ => .reprompt
  | .repromptSSML _ => .reprompt
  | .endSession _ => .shouldEndSession
  | .audioPlayerPlay _ _ _ _ _ => .directives
  | .audioPlayerStop => .directives
  | .audioPlayerClearQueue _ => .directives
  | .videoAppLaunch _ _ _ => .directives

/-- The method calls of `ops`, first to last, on the response `r`. -/
def applyOps (ops : List BuilderOp) (r : EchoResponse) : EchoResponse :=
  ops.foldl (fun acc op => op.apply acc) r

/-- A response built from `NewEchoResponse()` by the method calls of `ops`. -/
def build (ops : List BuilderOp) : EchoResponse := applyOps ops NewEchoResponse

/-- Value of the `type` key of a directive. -/
def Directive.type? (d : Directive) : Option GoValue := GoMap.get? d (lit "type")

/-! ## Lemmas on `time` -/

theorem Parse_error_fst (s : GoString) (h : (Parse s).2 ≠ none) : (Parse s).1 = zeroTime := by
  unfold Parse at *
  cases hp : parseFields s with
  | ok t => simp [hp] at h
  | error e => simp

theorem Sub_lt_iff (t u : Time) (bound : Int) (hlo : minDuration < bound)
    (hhi : bound ≤ maxDuration) : t.Sub u < bound ↔ t.nanos - u.nanos < bound := by
  unfold Time.Sub Time.nanos Second
  unfold minDuration maxDuration at *
  delta Duration at *
  simp only []
  split_ifs <;> constructor <;> intro h <;> omega

theorem VerifyTimestamp_eq (clock : WallClock) (req : EchoRequest) :
    req.VerifyTimestamp clock =
      decide ((Now clock).nanos - (Parse req.Request.Timestamp).1.nanos < 150000000000) := by
  have h := Sub_lt_iff (Now clock) (Parse req.Request.Timestamp).1 150000000000
    (by unfold minDuration; decide) (by unfold maxDuration; decide)
  unfold EchoRequest.VerifyTimestamp Since Second
  simp only []
  by_cases hc : (Now clock).Sub (Parse req.Request.Timestamp).1 < 150 * 1000000000
  · rw [if_pos hc]; exact (decide_eq_true (h.mp hc)).symm
  · rw [if_neg hc]; exact (decide_eq_false (fun h2 => hc (h.mpr h2))).symm

theorem digitByte_val (n : Nat) : (digitByte n).val = 48 + n % 10 := by
  unfold digitByte
  simp [Fin.ofNat]
  omega

theorem isDigitByte_digitByte (n : Nat) : isDigitByte (digitByte n) = true := by
  simp [isDigitByte, digitByte_val]
  omega

theorem digitVal_digitByte (n : Nat) : digitVal (digitByte n) = n % 10 := by
  simp [digitVal, digitByte_val]

theorem getnum_two (n : Nat) (rest : GoString) (fixed : Bool) (hn : n < 100) :
    getnum (digitByte (n / 10) :: digitByte n :: rest) fixed = .ok (n, rest) := by
  simp [getnum, isDigitByte_digitByte, digitVal_digitByte]
  omega

theorem getYear_four (y : Nat) (rest : GoString) (hy : y < 10000) :
    getYear (digitByte (y / 1000) :: digitByte (y / 100) :: digitByte (y / 10) ::
      digitByte y :: rest) = .ok (y, rest) := by
  simp [getYear, isDigitByte_digitByte, digitVal_digitByte]
  omega

theorem daysIn_le (m y : Nat) : daysIn m y ≤ 31 := by
  unfold daysIn; split_ifs <;> omega

/-- A timestamp written `YYYY-MM-DDTHH:MM:SSZ` with every field in range parses,
and to the instant of that civil date and time in UTC. -/
theorem Parse_formatTimestamp (y m d h mi s : Nat) (hy : y < 10000)
    (hm : 1 ≤ m ∧ m ≤ 12) (hd : 1 ≤ d ∧ d ≤ daysIn m y) (hh : h < 24) (hmi : mi < 60)
    (hs : s < 60) :
    Parse (formatTimestamp y m d h mi s) = (Date y m d h mi s 0, none) := by
  have hd31 := daysIn_le m y
  have e1 := getYear_four y
  have e2 := fun rest => getnum_two m rest true (by omega)
  have e3 := fun rest => getnum_two d rest true (by omega)
  have e4 := fun rest => getnum_two h rest false (by omega)
  have e5 := fun rest => getnum_two mi rest true (by omega)
  have e6 := fun rest => getnum_two s rest true (by omega)
  have hm0 : ¬ (m = 0 ∨ 12 < m) := by omega
  have hd0 : ¬ (d < 1 ∨ daysIn m y < d) := by omega
  have hh0 : ¬ (24 ≤ h) := by omega
  have hmi0 : ¬ (60 ≤ mi) := by omega
  have hs0 : ¬ (60 ≤ s) := by omega
  simp only [Parse, parseFields, formatTimestamp, e1 _ hy, e2, e3, e4, e5, e6, bind, Except.bind,
    skipByte, getFraction, if_true, if_neg hm0, if_neg hd0, if_neg hh0, if_neg hmi0, if_neg hs0,
    pure, Except.pure, ne_eq, not_true_eq_false, if_false]

/-! ## Request validation: `VerifyTimestamp` -/

/-- C1: when the timestamp parses under the layout to the instant `T`,
`VerifyTimestamp` returns true if and only if `now - T` is less than 150 seconds,
`now` being the instant of the clock reading; a timestamp exactly 150 seconds
old is refused. -/
theorem VerifyTimestamp_true_iff (clock : WallClock) (req : EchoRequest) (T : Time)
    (hparse : Parse req.Request.Timestamp = (T, none)) :
    (req.VerifyTimestamp clock = true ↔ (Now clock).nanos - T.nanos < 150 * 1000000000) ∧
    ((Now clock).nanos - T.nanos = 150 * 1000000000 → req.VerifyTimestamp clock = false) := by
  rw [VerifyTimestamp_eq, hparse]
  constructor
  · simp
  · intro h
    simp [h]

/-- C1 at `2020-01-01T00:00:00Z` (Unix time 1577836800): accepted one
nanosecond short of 150 seconds later, refused at 150 seconds. -/
theorem VerifyTimestamp_true_iff_witness :
    Parse (lit "2020-01-01T00:00:00Z") = (Date 2020 1 1 0 0 0 0, none) ∧
    ({ Request := { Timestamp := lit "2020-01-01T00:00:00Z" } } : EchoRequest).VerifyTimestamp
      ⟨1577836949, 999999999⟩ = true ∧
    ({ Request := { Timestamp := lit "2020-01-01T00:00:00Z" } } : EchoRequest).VerifyTimestamp
      ⟨1577836950, 0⟩ = false :=
  ⟨by decide,
   (VerifyTimestamp_true_iff ⟨1577836949, 999999999⟩
      { Request := { Timestamp := lit "2020-01-01T00:00:00Z" } } (Date 2020 1 1 0 0 0 0)
      (by decide)).1.mpr (by decide),
   (VerifyTimestamp_true_iff ⟨1577836950, 0⟩
      { Request := { Timestamp := lit "2020-01-01T00:00:00Z" } } (Date 2020 1 1 0 0 0 0)
      (by decide)).2 (by decide)⟩

/-- C2: when `time.Parse` refuses the timestamp, the empty string included,
`VerifyTimestamp` returns false whatever the clock reads, and it has no error
result: the zero `Time` that comes with the discarded error lies in year 1,
more than 150 seconds before any reading of the clock. -/
theorem VerifyTimestamp_malformed (clock : WallClock) (req : EchoRequest)
    (hmal : (Parse req.Request.Timestamp).2 ≠ none) :
    req.VerifyTimestamp clock = false := by
  rw [VerifyTimestamp_eq, Parse_error_fst _ hmal]
  simp [Now, unixToInternal, zeroTime, Time.nanos]
  omega

/-- C2 at the empty timestamp of the zero request, with the clock at the Unix
epoch. -/
theorem VerifyTimestamp_malformed_witness :
    (Parse ([] : GoString)).2 ≠ none ∧
    ({} : EchoRequest).VerifyTimestamp ⟨0, 0⟩ = false :=
  ⟨by decide, VerifyTimestamp_malformed ⟨0, 0⟩ {} (by decide)⟩

/-- C3, as stated, fails: with the clock at `2020-01-01T00:00:00Z` a timestamp
one hour ahead, `2020-01-01T01:00:00Z`, is accepted. -/
theorem VerifyTimestamp_future_hour_accepted :
    Parse (lit "2020-01-01T01:00:00Z") = (⟨(Now ⟨1577836800, 0⟩).sec + 3600, 0⟩, none) ∧
    ({ Request := { Timestamp := lit "2020-01-01T01:00:00Z" } } : EchoRequest).VerifyTimestamp
      ⟨1577836800, 0⟩ = true := by
  decide

/-- C3, amended: a timestamp that parses to an instant `T` later than `now` is
accepted, however far ahead: the one test is `now - T < 150 s` and a negative
difference passes it. -/
theorem VerifyTimestamp_future (clock : WallClock) (req : EchoRequest) (T : Time)
    (hparse : Parse req.Request.Timestamp = (T, none))
    (hfuture : (Now clock).nanos < T.nanos) :
    req.VerifyTimestamp clock = true := by
  rw [VerifyTimestamp_eq, hparse]
  simp
  omega

/-- C3 amended, at the last instant the layout can write, read at the Unix
epoch. -/
theorem VerifyTimestamp_future_witness :
    Parse (lit "9999-12-31T23:59:59Z") = (Date 9999 12 31 23 59 59 0, none) ∧
    (Now ⟨0, 0⟩).nanos < (Date 9999 12 31 23 59 59 0).nanos ∧
    ({ Request := { Timestamp := lit "9999-12-31T23:59:59Z" } } : EchoRequest).VerifyTimestamp
      ⟨0, 0⟩ = true :=
  ⟨by decide, by decide,
   VerifyTimestamp_future ⟨0, 0⟩ { Request := { Timestamp := lit "9999-12-31T23:59:59Z" } }
     (Date 9999 12 31 23 59 59 0) (by decide) (by decide)⟩

/-! ## Request validation: `VerifyAppID` -/

/-- C4: `VerifyAppID(id)` returns true if and only if `id` equals the
application id of the session or the application id of `Context.System`. -/
theorem VerifyAppID_true_iff (req : EchoRequest) (id : GoString) :
    req.VerifyAppID id = true ↔
      id = req.Session.Application.ApplicationID ∨
      id = req.Context.System.Application.ApplicationID := by
  unfold EchoRequest.VerifyAppID
  split_ifs with h
  · simp only [true_iff]
    rcases h with h | h
    · exact Or.inl h.symm
    · exact Or.inr h.symm
  · simp only [Bool.false_eq_true, false_iff]
    rintro (e | e)
    · exact h (Or.inl e.symm)
    · exact h (Or.inr e.symm)

/-- C5, as stated, fails: on the zero request, whose two application ids are
empty, `VerifyAppID("")` returns true. -/
theorem VerifyAppID_empty_zero_request :
    ({} : EchoRequest).Session.Application.ApplicationID = [] ∧
    ({} : EchoRequest).Context.System.Application.ApplicationID = [] ∧
    ({} : EchoRequest).VerifyAppID [] = true := by
  decide

/-- C5, amended: when the application ids of the session and of the context
are both empty, `VerifyAppID("")` returns true; the comparison is plain string
equality and empty equals empty. -/
theorem VerifyAppID_empty (req : EchoRequest)
    (hsession : req.Session.Application.ApplicationID = [])
    (hcontext : req.Context.System.Application.ApplicationID = []) :
    req.VerifyAppID [] = true := by
  unfold EchoRequest.VerifyAppID
  rw [hsession, hcontext]
  rfl

/-- C5 amended, on a request that carries other fields but no application id. -/
theorem VerifyAppID_empty_witness :
    ({ Version := lit "1.0", Request := { Type_ := lit "LaunchRequest" } } :
      EchoRequest).VerifyAppID [] = true :=
  VerifyAppID_empty { Version := lit "1.0", Request := { Type_ := lit "LaunchRequest" } }
    rfl rfl

/-! ## Accessors -/

theorem lookup_isSome_iff {α : Type} (es : List (GoString × α)) (k : GoString) :
    (es.lookup k).isSome = true ↔ k ∈ es.map Prod.fst := by
  induction es with
  | nil => simp
  | cons e es ih =>
    obtain ⟨k0, v0⟩ := e
    by_cases h : k = k0
    · subst h; simp [List.lookup]
    · have hb : (k == k0) = false := by simpa using h
      simp only [List.lookup, hb, ih, List.map_cons, List.mem_cons, h, false_or]

theorem lookup_of_mem_nodup {α : Type} (es : List (GoString × α)) (k : GoString) (v : α)
    (hnodup : (es.map Prod.fst).Nodup) (hmem : (k, v) ∈ es) : es.lookup k = some v := by
  induction es with
  | nil => simp at hmem
  | cons e es ih =>
    obtain ⟨k0, v0⟩ := e
    simp only [List.map_cons, List.nodup_cons] at hnodup
    rcases List.mem_cons.mp hmem with h | h
    · cases h; simp [List.lookup]
    · have hk : k ∈ es.map Prod.fst := List.mem_map.mpr ⟨(k, v), h, rfl⟩
      have hne : k ≠ k0 := fun e => hnodup.1 (e ▸ hk)
      have hb : (k == k0) = false := by simpa using hne
      simp only [List.lookup, hb]
      exact ih hnodup.2 h

theorem GoMap.get?_isSome_iff {α : Type} (m : GoMap α) (k : GoString) :
    (m.get? k).isSome = true ↔ k ∈ m.keys := by
  cases m with
  | none => simp [GoMap.get?, GoMap.keys]
  | some es => exact lookup_isSome_iff es k

theorem GoMap.get?_of_mem {α : Type} (m : GoMap α) (es : List (GoString × α)) (k : GoString)
    (v : α) (hm : m = some es) (hwf : m.WF) (hmem : (k, v) ∈ es) : m.get? k = some v := by
  subst hm
  exact lookup_of_mem_nodup es k v hwf hmem

/-- C6: `GetSlotValue(n)` returns a nil error exactly when `n` is a key of the
slot map. It then returns the `Value` of the slot the map holds under `n`,
whatever the `Name` inside that slot. When `n` is no key, and so for the nil
map, it returns the error "Slot name not found." beside the empty string. -/
theorem GetSlotValue_spec (req : EchoRequest) (n : GoString) :
    ((req.GetSlotValue n).2 = none ↔ n ∈ req.Request.Intent.Slots.keys) ∧
    (∀ slot, req.Request.Intent.Slots.get? n = some slot →
      req.GetSlotValue n = (slot.Value, none)) ∧
    (∀ es slot, req.Request.Intent.Slots = some es → req.Request.Intent.Slots.WF →
      (n, slot) ∈ es → req.GetSlotValue n = (slot.Value, none)) ∧
    (n ∉ req.Request.Intent.Slots.keys →
      req.GetSlotValue n = ([], some (lit "Slot name not found."))) ∧
    (req.Request.Intent.Slots = none →
      req.GetSlotValue n = ([], some (lit "Slot name not found."))) := by
  have hkey := GoMap.get?_isSome_iff req.Request.Intent.Slots n
  have hslot : ∀ slot, req.Request.Intent.Slots.get? n = some slot →
      req.GetSlotValue n = (slot.Value, none) := by
    intro slot h
    simp [EchoRequest.GetSlotValue, h]
  have hnone : req.Request.Intent.Slots.get? n = none →
      req.GetSlotValue n = ([], some (lit "Slot name not found.")) := by
    intro h
    simp [EchoRequest.GetSlotValue, h]
  refine ⟨?_, hslot, ?_, ?_, ?_⟩
  · cases h : req.Request.Intent.Slots.get? n with
    | none =>
      rw [hnone h]
      rw [h] at hkey
      simpa using hkey
    | some slot =>
      rw [hslot slot h]
      rw [h] at hkey
      simpa using hkey
  · intro es slot hes hwf hmem
    exact hslot slot (GoMap.get?_of_mem _ es n slot hes hwf hmem)
  · intro hn
    apply hnone
    cases h : req.Request.Intent.Slots.get? n with
    | none => rfl
    | some slot =>
      rw [h] at hkey
      exact absurd (hkey.mp rfl) hn
  · intro hnil
    apply hnone
    rw [hnil]
    rfl

/-- C6 on a slot map with keys `city` and `day`, where the slot under `city`
names itself `town` and the slot under `day` has an empty value: `city` yields
`Paris`, `day` yields the empty string with a nil error, `town` is not found. -/
theorem GetSlotValue_spec_witness :
    ({ Request := { Intent := { Slots := some [
        (lit "city", { Name := lit "town", Value := lit "Paris" }),
        (lit "day", { Name := lit "day", Value := List.nil })] } } } : EchoRequest).GetSlotValue
      (lit "city") = (lit "Paris", none) ∧
    ({ Request := { Intent := { Slots := some [
        (lit "city", { Name := lit "town", Value := lit "Paris" }),
        (lit "day", { Name := lit "day", Value := List.nil })] } } } : EchoRequest).GetSlotValue
      (lit "town") = ([], some (lit "Slot name not found.")) :=
  ⟨(GetSlotValue_spec _ (lit "city")).2.2.1 _ { Name := lit "town", Value := lit "Paris" }
      rfl (by decide) (by decide),
   (GetSlotValue_spec _ (lit "town")).2.2.2.1 (by decide)⟩

/-- C7: `GetIntentName` returns the name of the intent when the request type
is exactly `IntentRequest`, and otherwise the request type itself, which is what
`GetRequestType` returns; a `LaunchRequest` yields `LaunchRequest`. -/
theorem GetIntentName_spec (req : EchoRequest) :
    (req.Request.Type_ = lit "IntentRequest" → req.GetIntentName = req.Request.Intent.Name) ∧
    (req.Request.Type_ ≠ lit "IntentRequest" →
      req.GetIntentName = req.Request.Type_ ∧ req.GetIntentName = req.GetRequestType) ∧
    (req.Request.Type_ = lit "LaunchRequest" → req.GetIntentName = lit "LaunchRequest") := by
  refine ⟨?_, ?_, ?_⟩
  · intro h
    simp [EchoRequest.GetIntentName, EchoRequest.GetRequestType, h]
  · intro h
    simp [EchoRequest.GetIntentName, EchoRequest.GetRequestType, h]
  · intro h
    have hne : lit "LaunchRequest" ≠ lit "IntentRequest" := by decide
    simp [EchoRequest.GetIntentName, EchoRequest.GetRequestType, h, hne]

/-- C7 on an intent request named `Order` and on a launch request that still
carries an intent name. -/
theorem GetIntentName_spec_witness :
    ({ Request := { Type_ := lit "IntentRequest", Intent := { Name := lit "Order" } } } :
      EchoRequest).GetIntentName = lit "Order" ∧
    ({ Request := { Type_ := lit "LaunchRequest", Intent := { Name := lit "Order" } } } :
      EchoRequest).GetIntentName = lit "LaunchRequest" :=
  ⟨(GetIntentName_spec _).1 rfl, (GetIntentName_spec _).2.2 rfl⟩

/-- C8: `GetUserID` returns the user id of the session when that is not empty,
and the user id of `Context.System.User` when the session user id is empty; a
result that differs from the session user id occurs only when the session user
id is empty. -/
theorem GetUserID_spec (req : EchoRequest) :
    (req.Session.User.UserID ≠ [] → req.GetUserID = req.Session.User.UserID) ∧
    (req.Session.User.UserID = [] → req.GetUserID = req.Context.System.User.UserId) ∧
    (req.GetUserID ≠ req.Session.User.UserID → req.Session.User.UserID = []) := by
  refine ⟨?_, ?_, ?_⟩
  · intro h
    simp [EchoRequest.GetUserID, h]
  · intro h
    simp [EchoRequest.GetUserID, h]
  · intro h
    by_contra hne
    exact h (by simp [EchoRequest.GetUserID, hne])

/-- C8 on a request with both user ids and on one with the context user id
only. -/
theorem GetUserID_spec_witness :
    ({ Session := { User := { UserID := lit "s" } },
       Context := { System := { User := { UserId := lit "c" } } } } :
      EchoRequest).GetUserID = lit "s" ∧
    ({ Context := { System := { User := { UserId := lit "c" } } } } :
      EchoRequest).GetUserID = lit "c" :=
  ⟨(GetUserID_spec _).1 (by decide), (GetUserID_spec _).2.1 rfl⟩

/-! ## Response builder -/

/-- C9: `NewEchoResponse` has version `1.0`, a should-end-session flag that is
present and true, a directive slice that is empty and not nil, an empty
session-attribute map, and neither output speech nor card nor reprompt nor
can-fulfill payload. -/
theorem NewEchoResponse_defaults :
    NewEchoResponse.Version = lit "1.0" ∧
    NewEchoResponse.Response.ShouldEndSession = some true ∧
    NewEchoResponse.Response.Directives = some [] ∧
    NewEchoResponse.SessionAttributes = some [] ∧
    NewEchoResponse.SessionAttributes.len = 0 ∧
    NewEchoResponse.Response.OutputSpeech = none ∧
    NewEchoResponse.Response.Card = none ∧
    NewEchoResponse.Response.Reprompt = none ∧
    NewEchoResponse.Response.CanFulfillIntent = none :=
  ⟨rfl, rfl, rfl, rfl, rfl, rfl, rfl, rfl, rfl⟩

/-! ## Serialization round trip -/

theorem coerceFrom_of_validFrom (s : GoString) :
    ∀ skip, validFrom skip s = true → coerceFrom skip s = s := by
  induction s with
  | nil => intro skip _; cases skip <;> rfl
  | cons b rest ih =>
    intro skip h
    cases skip with
    | succ k =>
      simp only [validFrom] at h
      simp only [coerceFrom, ih k h]
    | zero =>
      simp only [validFrom] at h
      simp only [coerceFrom]
      cases hw : runeWidth (b :: rest) with
      | none => simp [hw] at h
      | some w =>
        simp only [hw] at h
        simp only [ih (w - 1) h]

/-- Valid UTF-8 is written as it is. -/
theorem toValidUTF8_of_valid (s : GoString) (h : ValidString s = true) : toValidUTF8 s = s :=
  coerceFrom_of_validFrom s 0 h

/-- The document `String()` returns for `NewEchoResponse().OutputSpeech(t)`
decodes to an envelope whose output speech is `PlainText` with the text `t` as
JSON carries it: `t` with each invalid byte replaced by U+FFFD. -/
theorem OutputSpeech_roundtrip_coerced (t : GoString) :
    ∃ j r, (NewEchoResponse.OutputSpeech t).String = .ok j ∧ Unmarshal j = .ok r ∧
      r.Response.OutputSpeech = some { Type_ := lit "PlainText", Text := toValidUTF8 t } ∧
      r.Response.ShouldEndSession = some true ∧
      r.Response.Directives = some [] := by
  cases t with
  | nil => exact ⟨_, _, rfl, rfl, rfl, rfl, rfl⟩
  | cons b rest => exact ⟨_, _, rfl, rfl, rfl, rfl, rfl⟩

/-- C10, as stated, fails: for the one-byte text `FF`, which is not UTF-8, the
document decodes to the text `EF BF BD` (U+FFFD), not to the text given. -/
theorem OutputSpeech_roundtrip_invalid_utf8 :
    ∃ j r, (NewEchoResponse.OutputSpeech [0xFF]).String = .ok j ∧ Unmarshal j = .ok r ∧
      r.Response.OutputSpeech =
        some { Type_ := lit "PlainText", Text := [0xEF, 0xBF, 0xBD] } ∧
      (r.Response.OutputSpeech.map (fun p => p.Text)) ≠ some [0xFF] :=
  ⟨_, _, rfl, rfl, rfl, by decide⟩

/-- C10, amended: for every text `t` that is valid UTF-8, `String()` on
`NewEchoResponse().OutputSpeech(t)` succeeds and its document decodes to an
envelope with output speech of type `PlainText` and text `t`, should-end-session
true, and the empty directive sequence. -/
theorem OutputSpeech_roundtrip (t : GoString) (hvalid : ValidString t = true) :
    ∃ j r, (NewEchoResponse.OutputSpeech t).String = .ok j ∧ Unmarshal j = .ok r ∧
      r.Response.OutputSpeech.map (fun p => p.Type_) = some (lit "PlainText") ∧
      r.Response.OutputSpeech.map (fun p => p.Text) = some t ∧
      r.Response.ShouldEndSession = some true ∧
      r.Response.Directives = some [] := by
  obtain ⟨j, r, hj, hr, hspeech, hend, hdir⟩ := OutputSpeech_roundtrip_coerced t
  refine ⟨j, r, hj, hr, ?_, ?_, hend, hdir⟩
  · rw [hspeech]; rfl
  · rw [hspeech, toValidUTF8_of_valid t hvalid]; rfl

/-- C10 amended, at the text `Hello`. -/
theorem OutputSpeech_roundtrip_witness :
    ValidString (lit "Hello") = true ∧
    ∃ j r, (NewEchoResponse.OutputSpeech (lit "Hello")).String = .ok j ∧
      Unmarshal j = .ok r ∧
      r.Response.OutputSpeech.map (fun p => p.Type_) = some (lit "PlainText") ∧
      r.Response.OutputSpeech.map (fun p => p.Text) = some (lit "Hello") ∧
      r.Response.ShouldEndSession = some true ∧
      r.Response.Directives = some [] :=
  ⟨by decide, OutputSpeech_roundtrip (lit "Hello") (by decide)⟩

/-! ## Shape of the serialized envelope -/

theorem marshalBody_members (b : EchoRespBody) (body : JSON) (h : marshalBody b = .ok body) :
    body.member? (lit "outputSpeech") = b.OutputSpeech.map marshalPayload ∧
    body.member? (lit "card") = b.Card.map marshalPayload ∧
    body.member? (lit "reprompt") = b.Reprompt.map marshalReprompt ∧
    body.member? (lit "shouldEndSession") = b.ShouldEndSession.map JSON.bool ∧
    (∃ dirs, marshalDirectives b.Directives = .ok dirs ∧
      body.member? (lit "directives") = some dirs) ∧
    body.member? (lit "canFulfillIntent") = b.CanFulfillIntent.map marshalCanFulfill := by
  unfold marshalBody at h
  cases hd : marshalDirectives b.Directives with
  | error e => rw [hd] at h; cases h
  | ok dirs =>
    rw [hd] at h
    cases h
    cases b.OutputSpeech <;> cases b.Card <;> cases b.Reprompt <;> cases b.ShouldEndSession <;>
      cases b.CanFulfillIntent <;> exact ⟨rfl, rfl, rfl, rfl, ⟨_, rfl, rfl⟩, rfl⟩

theorem String_members (r : EchoResponse) (j : JSON) (h : r.String = .ok j) :
    j.member? (lit "version") = some (.str (toValidUTF8 r.Version)) ∧
    (∃ body, marshalBody r.Response = .ok body ∧ j.member? (lit "response") = some body) ∧
    (r.SessionAttributes.len = 0 → j.member? (lit "sessionAttributes") = none) := by
  unfold EchoResponse.String at h
  cases hm : Marshal r with
  | error e => rw [hm] at h; cases h
  | ok j0 =>
    rw [hm] at h
    cases h
    unfold Marshal at hm
    cases hb : marshalBody r.Response with
    | error e =>
      rw [hb] at hm
      by_cases hlen : r.SessionAttributes.len = 0
      · rw [if_pos hlen] at hm; cases hm
      · rw [if_neg hlen] at hm
        cases ha : marshalMap r.SessionAttributes <;> rw [ha] at hm <;> cases hm
    | ok body =>
      rw [hb] at hm
      by_cases hlen : r.SessionAttributes.len = 0
      · rw [if_pos hlen] at hm
        cases hm
        exact ⟨rfl, ⟨body, rfl, rfl⟩, fun _ => rfl⟩
      · rw [if_neg hlen] at hm
        cases ha : marshalMap r.SessionAttributes with
        | error e => rw [ha] at hm; cases hm
        | ok attrs =>
          rw [ha] at hm
          cases hm
          exact ⟨rfl, ⟨body, rfl, rfl⟩, fun h0 => absurd h0 hlen⟩

theorem String_isOk_congr (r s : EchoResponse) (hattrs : s.SessionAttributes = r.SessionAttributes)
    (hdirs : s.Response.Directives = r.Response.Directives) :
    s.String.isOk = r.String.isOk := by
  unfold EchoResponse.String Marshal marshalBody
  rw [hattrs, hdirs]
  cases marshalDirectives r.Response.Directives <;>
    by_cases hlen : r.SessionAttributes.len = 0 <;>
    simp only [hlen, if_true, if_false] <;>
    cases marshalMap r.SessionAttributes <;> rfl

/-! ## `EndSession` -/

/-- C11: after `EndSession(flag)` the should-end-session pointer is non-nil and
points at `flag`. Serialization succeeds exactly when it did before the call,
and the `response` object of the document then has the member
`shouldEndSession` with the value `flag`, also when `flag` is false. -/
theorem EndSession_spec (r : EchoResponse) (flag : Bool) :
    (r.EndSession flag).Response.ShouldEndSession = some flag ∧
    (r.EndSession flag).String.isOk = r.String.isOk ∧
    (∀ j, (r.EndSession flag).String = .ok j →
      ∃ body, j.member? (lit "response") = some body ∧
        body.member? (lit "shouldEndSession") = some (.bool flag)) := by
  refine ⟨rfl, String_isOk_congr r _ rfl rfl, ?_⟩
  intro j hj
  obtain ⟨_, ⟨body, hbody, hresp⟩, _⟩ := String_members _ j hj
  exact ⟨body, hresp, (marshalBody_members _ body hbody).2.2.2.1⟩

/-- C11 at `NewEchoResponse().EndSession(false)`: the whole document. -/
theorem EndSession_spec_witness :
    (NewEchoResponse.EndSession false).String = .ok (.obj [
      (lit "version", .str (lit "1.0")),
      (lit "response", .obj [
        (lit "shouldEndSession", .bool false),
        (lit "directives", .arr [])])]) ∧
    ∃ body, (JSON.obj [
      (lit "version", .str (lit "1.0")),
      (lit "response", .obj [
        (lit "shouldEndSession", .bool false),
        (lit "directives", .arr [])])]).member? (lit "response") = some body ∧
      body.member? (lit "shouldEndSession") = some (.bool false) :=
  ⟨rfl, (EndSession_spec NewEchoResponse false).2.2 _ rfl⟩

/-! ## Directives -/

/-- C12: each of `AudioPlayerPlay`, `AudioPlayerStop`, `AudioPlayerClearQueue`
and `VideoAppLaunch` leaves the directive sequence `D` of the response followed
by exactly one new directive, whose `type` key names the operation; the elements
of `D` stay as they were, in their order. On a fresh response `AudioPlayerPlay`
then `AudioPlayerStop` give two directives of types `AudioPlayer.Play` and
`AudioPlayer.Stop` in that order, in the response and in its serialized form. -/
theorem directive_append_spec (r : EchoResponse) (behavior : AudioPlayerPlayBehavior)
    (streamUrl token : GoString) (prevToken : Option GoString) (offsetMs : Int)
    (clearBehavior : AudioPlayerClearQueueBehavior) (title subtitle : GoString) :
    (∃ d, (r.AudioPlayerPlay behavior streamUrl token prevToken offsetMs).Response.Directives =
        some (r.Response.Directives.getD [] ++ [d]) ∧
      d.type? = some (.str (lit "AudioPlayer.Play"))) ∧
    (∃ d, r.AudioPlayerStop.Response.Directives =
        some (r.Response.Directives.getD [] ++ [d]) ∧
      d.type? = some (.str (lit "AudioPlayer.Stop"))) ∧
    (∃ d, (r.AudioPlayerClearQueue clearBehavior).Response.Directives =
        some (r.Response.Directives.getD [] ++ [d]) ∧
      d.type? = some (.str (lit "AudioPlayer.ClearQueue"))) ∧
    (∃ d, (r.VideoAppLaunch streamUrl title subtitle).Response.Directives =
        some (r.Response.Directives.getD [] ++ [d]) ∧
      d.type? = some (.str (lit "VideoApp.Launch"))) ∧
    ((NewEchoResponse.AudioPlayerPlay behavior streamUrl token prevToken
        offsetMs).AudioPlayerStop.Response.Directives.map (List.map Directive.type?) =
      some [some (.str (lit "AudioPlayer.Play")), some (.str (lit "AudioPlayer.Stop"))]) ∧
    (∃ j body d1 d2,
      (NewEchoResponse.AudioPlayerPlay behavior streamUrl token prevToken
        offsetMs).AudioPlayerStop.String = .ok j ∧
      j.member? (lit "response") = some body ∧
      body.member? (lit "directives") = some (.arr [d1, d2]) ∧
      d1.member? (lit "type") = some (.str (lit "AudioPlayer.Play")) ∧
      d2.member? (lit "type") = some (.str (lit "AudioPlayer.Stop"))) := by
  refine ⟨⟨_, rfl, rfl⟩, ⟨_, rfl, rfl⟩, ⟨_, rfl, rfl⟩, ⟨_, rfl, rfl⟩, rfl, ?_⟩
  cases prevToken with
  | none => exact ⟨_, _, _, _, rfl, rfl, rfl, rfl, rfl⟩
  | some p => exact ⟨_, _, _, _, rfl, rfl, rfl, rfl, rfl⟩

/-- C18: `VideoAppLaunch` appends one directive with the keys `type`, equal to
`VideoApp.Launch`, and `videoItem`. The video item has `source` equal to the
url, and has `metadata` if and only if the title or the subtitle is not empty;
the metadata then has the keys `title` and `subtitle` with the two arguments as
given, the empty one included. -/
theorem VideoAppLaunch_spec (r : EchoResponse) (streamUrl title subtitle : GoString) :
    ∃ item, (r.VideoAppLaunch streamUrl title subtitle).Response.Directives =
        some (r.Response.Directives.getD [] ++
          [some [(lit "type", .str (lit "VideoApp.Launch")), (lit "videoItem", .map item)]]) ∧
      item.lookup (lit "source") = some (.str streamUrl) ∧
      ((item.lookup (lit "metadata")).isSome = true ↔ (title ≠ [] ∨ subtitle ≠ [])) ∧
      (title ≠ [] ∨ subtitle ≠ [] →
        item.lookup (lit "metadata") =
          some (.map [(lit "title", .str title), (lit "subtitle", .str subtitle)])) ∧
      (title = [] ∧ subtitle = [] → item = [(lit "source", .str streamUrl)]) := by
  by_cases h : title ≠ [] ∨ subtitle ≠ []
  · refine ⟨[(lit "source", .str streamUrl),
      (lit "metadata", .map [(lit "title", .str title), (lit "subtitle", .str subtitle)])],
      ?_, rfl, ?_, fun _ => rfl, ?_⟩
    · simp only [EchoResponse.VideoAppLaunch, if_pos h]
      rfl
    · exact ⟨fun _ => h, fun _ => rfl⟩
    · rintro ⟨h1, h2⟩
      rcases h with h | h
      · exact absurd h1 h
      · exact absurd h2 h
  · refine ⟨[(lit "source", .str streamUrl)], ?_, rfl, ?_, fun h2 => absurd h2 h, fun _ => rfl⟩
    · simp only [EchoResponse.VideoAppLaunch, if_neg h]
      rfl
    · exact ⟨fun h2 => Bool.noConfusion (h2 : false = true), fun h2 => absurd h2 h⟩

/-- C18 with a subtitle and no title: the metadata carries the empty title. -/
theorem VideoAppLaunch_spec_witness :
    ∃ item, (NewEchoResponse.VideoAppLaunch (lit "https://v/1") [] (lit "sub")).Response.Directives =
        some (NewEchoResponse.Response.Directives.getD [] ++
          [some [(lit "type", .str (lit "VideoApp.Launch")), (lit "videoItem", .map item)]]) ∧
      item.lookup (lit "metadata") =
        some (.map [(lit "title", .str []), (lit "subtitle", .str (lit "sub"))]) := by
  obtain ⟨item, hdir, _, _, hmeta, _⟩ :=
    VideoAppLaunch_spec NewEchoResponse (lit "https://v/1") [] (lit "sub")
  exact ⟨item, hdir, hmeta (Or.inr (by decide))⟩

/-- C19: `AudioPlayerPlay` appends one directive with `type` equal to
`AudioPlayer.Play`, `playBehavior` equal to the behavior, and `audioItem` holding
a `stream` object with `url`, `token` and `offsetInMilliseconds` equal to the
arguments. The stream has `expectedPreviousToken` exactly when the previous
token pointer is non-nil, with the string it points at, the empty string
included. -/
theorem AudioPlayerPlay_spec (r : EchoResponse) (behavior : AudioPlayerPlayBehavior)
    (streamUrl token : GoString) (prevToken : Option GoString) (offsetMs : Int) :
    ∃ stream, (r.AudioPlayerPlay behavior streamUrl token prevToken offsetMs).Response.Directives =
        some (r.Response.Directives.getD [] ++
          [some [(lit "type", .str (lit "AudioPlayer.Play")),
            (lit "playBehavior", .str behavior),
            (lit "audioItem", .map [(lit "stream", .map stream)])]]) ∧
      stream.lookup (lit "url") = some (.str streamUrl) ∧
      stream.lookup (lit "token") = some (.str token) ∧
      stream.lookup (lit "offsetInMilliseconds") = some (.int offsetMs) ∧
      stream.lookup (lit "expectedPreviousToken") = prevToken.map GoValue.str ∧
      stream.map Prod.fst = [lit "url", lit "token", lit "offsetInMilliseconds"] ++
        (if prevToken.isSome then [lit "expectedPreviousToken"] else []) := by
  cases prevToken with
  | none => exact ⟨_, rfl, rfl, rfl, rfl, rfl, rfl⟩
  | some p => exact ⟨_, rfl, rfl, rfl, rfl, rfl, rfl⟩

/-! ## Payloads -/

theorem marshalPayload_image (p : EchoRespPayload) :
    (marshalPayload p).member? (lit "image") = some (marshalImage p.Image) := by
  obtain ⟨ty, title, text, ssml, content, image⟩ := p
  cases ty <;> cases title <;> cases text <;> cases ssml <;> cases content <;> rfl

/-- C13 fails on the code: every serialized payload has the key `image`. After
`OutputSpeech(t)`, `SimpleCard(title, content)` and `LinkAccountCard()` the
serialized payload holds `image` with the empty object as value, whenever
serialization succeeds; on a fresh response the card of `LinkAccountCard()` is
written with the keys `type` and `image`, and the speech of
`OutputSpeech("Hello")` with `type`, `text` and `image`. -/
theorem serialized_payload_has_image (r : EchoResponse) (t title content : GoString) :
    (∀ j, (r.OutputSpeech t).String = .ok j →
      ∃ body speech, j.member? (lit "response") = some body ∧
        body.member? (lit "outputSpeech") = some speech ∧
        speech.member? (lit "image") = some (.obj [])) ∧
    (∀ j, (r.SimpleCard title content).String = .ok j →
      ∃ body card, j.member? (lit "response") = some body ∧
        body.member? (lit "card") = some card ∧
        card.member? (lit "image") = some (.obj [])) ∧
    (∀ j, r.LinkAccountCard.String = .ok j →
      ∃ body card, j.member? (lit "response") = some body ∧
        body.member? (lit "card") = some card ∧
        card.member? (lit "image") = some (.obj []) ∧
        card.keys = [lit "type", lit "image"]) ∧
    NewEchoResponse.LinkAccountCard.String = .ok (.obj [
      (lit "version", .str (lit "1.0")),
      (lit "response", .obj [
        (lit "card", .obj [(lit "type", .str (lit "LinkAccount")), (lit "image", .obj [])]),
        (lit "shouldEndSession", .bool true),
        (lit "directives", .arr [])])]) ∧
    (NewEchoResponse.OutputSpeech (lit "Hello")).String = .ok (.obj [
      (lit "version", .str (lit "1.0")),
      (lit "response", .obj [
        (lit "outputSpeech", .obj [(lit "type", .str (lit "PlainText")),
          (lit "text", .str (lit "Hello")), (lit "image", .obj [])]),
        (lit "shouldEndSession", .bool true),
        (lit "directives", .arr [])])]) := by
  refine ⟨?_, ?_, ?_, rfl, rfl⟩
  · intro j hj
    obtain ⟨_, ⟨body, hbody, hresp⟩, _⟩ := String_members _ j hj
    exact ⟨body, _, hresp, (marshalBody_members _ body hbody).1, marshalPayload_image _⟩
  · intro j hj
    obtain ⟨_, ⟨body, hbody, hresp⟩, _⟩ := String_members _ j hj
    exact ⟨body, _, hresp, (marshalBody_members _ body hbody).2.1, marshalPayload_image _⟩
  · intro j hj
    obtain ⟨_, ⟨body, hbody, hresp⟩, _⟩ := String_members _ j hj
    exact ⟨body, _, hresp, (marshalBody_members _ body hbody).2.1, marshalPayload_image _, rfl⟩

/-- C14 fails on the code: `RepromptSSML(s)` stores `s` in the `Text` field of
the reprompt payload and leaves `SSML` empty, while `OutputSpeechSSML(s)` stores
`s` in `SSML` and leaves `Text` empty. The reprompt of
`RepromptSSML("<speak>Hi</speak>")` is written with the markup under the key
`text` and without the key `ssml`. -/
theorem RepromptSSML_stores_text (r : EchoResponse) (s : GoString) :
    (r.RepromptSSML s).Response.Reprompt =
      some { OutputSpeech := { Type_ := lit "SSML", Text := s, SSML := [] } } ∧
    (r.OutputSpeechSSML s).Response.OutputSpeech =
      some { Type_ := lit "SSML", Text := [], SSML := s } ∧
    (NewEchoResponse.RepromptSSML (lit "<speak>Hi</speak>")).String = .ok (.obj [
      (lit "version", .str (lit "1.0")),
      (lit "response", .obj [
        (lit "reprompt", .obj [(lit "outputSpeech", .obj [(lit "type", .str (lit "SSML")),
          (lit "text", .str (lit "<speak>Hi</speak>")), (lit "image", .obj [])])]),
        (lit "shouldEndSession", .bool true),
        (lit "directives", .arr [])])]) ∧
    (NewEchoResponse.OutputSpeechSSML (lit "<speak>Hi</speak>")).String = .ok (.obj [
      (lit "version", .str (lit "1.0")),
      (lit "response", .obj [
        (lit "outputSpeech", .obj [(lit "type", .str (lit "SSML")),
          (lit "ssml", .str (lit "<speak>Hi</speak>")), (lit "image", .obj [])]),
        (lit "shouldEndSession", .bool true),
        (lit "directives", .arr [])])]) :=
  ⟨rfl, rfl, rfl, rfl⟩

theorem marshalImage_members (small large : GoString) :
    (marshalImage ⟨small, large⟩).member? (lit "smallImageUrl") =
      (if small = [] then none else some (.str (toValidUTF8 small))) ∧
    (marshalImage ⟨small, large⟩).member? (lit "largeImageUrl") =
      (if large = [] then none else some (.str (toValidUTF8 large))) := by
  cases small <;> cases large <;> exact ⟨rfl, rfl⟩

/-- C15: `StandardCard` sets the card to type `Standard` with the title and
content given, the small image URL equal to `smallImg` and the large one to
`largeImg`, an empty argument leaving the field empty. In the serialized card
the `image` object has `smallImageUrl` exactly when `smallImg` is not empty and
`largeImageUrl` exactly when `largeImg` is not empty; with a small image URL
only, it has `smallImageUrl` and no `largeImageUrl`. -/
theorem StandardCard_spec (r : EchoResponse) (title content smallImg largeImg : GoString) :
    (r.StandardCard title content smallImg largeImg).Response.Card =
      some { Type_ := lit "Standard", Title := title, Content := content,
             Image := { SmallImageURL := smallImg, LargeImageURL := largeImg } } ∧
    (∀ j, (r.StandardCard title content smallImg largeImg).String = .ok j →
      ∃ body card image, j.member? (lit "response") = some body ∧
        body.member? (lit "card") = some card ∧
        card.member? (lit "image") = some image ∧
        image.member? (lit "smallImageUrl") =
          (if smallImg = [] then none else some (.str (toValidUTF8 smallImg))) ∧
        image.member? (lit "largeImageUrl") =
          (if largeImg = [] then none else some (.str (toValidUTF8 largeImg)))) ∧
    (r.StandardCard title content smallImg largeImg).String.isOk = r.String.isOk := by
  have hcard : (r.StandardCard title content smallImg largeImg).Response.Card =
      some { Type_ := lit "Standard", Title := title, Content := content,
             Image := { SmallImageURL := smallImg, LargeImageURL := largeImg } } := by
    cases smallImg <;> cases largeImg <;> rfl
  refine ⟨hcard, ?_, String_isOk_congr r _ rfl rfl⟩
  intro j hj
  obtain ⟨_, ⟨body, hbody, hresp⟩, _⟩ := String_members _ j hj
  have hc := (marshalBody_members _ body hbody).2.1
  rw [hcard] at hc
  exact ⟨body, _, _, hresp, hc, marshalPayload_image _,
    (marshalImage_members smallImg largeImg).1, (marshalImage_members smallImg largeImg).2⟩

/-- C15 on a fresh response with a small image URL only: the whole document. -/
theorem StandardCard_spec_witness :
    (NewEchoResponse.StandardCard (lit "T") (lit "C") (lit "https://i/s.png") []).String =
      .ok (.obj [
        (lit "version", .str (lit "1.0")),
        (lit "response", .obj [
          (lit "card", .obj [(lit "type", .str (lit "Standard")), (lit "title", .str (lit "T")),
            (lit "content", .str (lit "C")),
            (lit "image", .obj [(lit "smallImageUrl", .str (lit "https://i/s.png"))])]),
          (lit "shouldEndSession", .bool true),
          (lit "directives", .arr [])])]) ∧
    ∃ body card image, (JSON.obj [
        (lit "version", .str (lit "1.0")),
        (lit "response", .obj [
          (lit "card", .obj [(lit "type", .str (lit "Standard")), (lit "title", .str (lit "T")),
            (lit "content", .str (lit "C")),
            (lit "image", .obj [(lit "smallImageUrl", .str (lit "https://i/s.png"))])]),
          (lit "shouldEndSession", .bool true),
          (lit "directives", .arr [])])]).member? (lit "response") = some body ∧
      body.member? (lit "card") = some card ∧
      card.member? (lit "image") = some image ∧
      image.member? (lit "smallImageUrl") = some (.str (lit "https://i/s.png")) ∧
      image.member? (lit "largeImageUrl") = none := by
  refine ⟨rfl, ?_⟩
  obtain ⟨body, card, image, h1, h2, h3, h4, h5⟩ :=
    (StandardCard_spec NewEchoResponse (lit "T") (lit "C") (lit "https://i/s.png") []).2.1 _ rfl
  exact ⟨body, card, image, h1, h2, h3, h4, h5⟩

/-! ## Setters overwrite; what each method leaves alone -/

theorem apply_overwrite (op1 op2 : BuilderOp) (r : EchoResponse) (hsame : op1.field = op2.field)
    (hset : op2.field ≠ .directives) : op2.apply (op1.apply r) = op2.apply r := by
  cases op1 <;> cases op2 <;> simp [BuilderOp.field] at hsame hset <;> rfl

theorem apply_frame (op : BuilderOp) (r : EchoResponse) :
    (op.apply r).Version = r.Version ∧
    (op.apply r).SessionAttributes = r.SessionAttributes ∧
    (op.apply r).Response.CanFulfillIntent = r.Response.CanFulfillIntent ∧
    (op.field ≠ .outputSpeech → (op.apply r).Response.OutputSpeech = r.Response.OutputSpeech) ∧
    (op.field ≠ .card → (op.apply r).Response.Card = r.Response.Card) ∧
    (op.field ≠ .reprompt → (op.apply r).Response.Reprompt = r.Response.Reprompt) ∧
    (op.field ≠ .shouldEndSession →
      (op.apply r).Response.ShouldEndSession = r.Response.ShouldEndSession) ∧
    (op.field ≠ .directives → (op.apply r).Response.Directives = r.Response.Directives) := by
  cases op <;>
    exact ⟨rfl, rfl, rfl,
      fun h => by first | rfl | exact absurd rfl h,
      fun h => by first | rfl | exact absurd rfl h,
      fun h => by first | rfl | exact absurd rfl h,
      fun h => by first | rfl | exact absurd rfl h,
      fun h => by first | rfl | exact absurd rfl h⟩

theorem applyOps_frame (ops : List BuilderOp) :
    ∀ r : EchoResponse,
    (applyOps ops r).Version = r.Version ∧
    (applyOps ops r).SessionAttributes = r.SessionAttributes ∧
    (applyOps ops r).Response.CanFulfillIntent = r.Response.CanFulfillIntent ∧
    ((∀ op ∈ ops, op.field ≠ .outputSpeech) →
      (applyOps ops r).Response.OutputSpeech = r.Response.OutputSpeech) ∧
    ((∀ op ∈ ops, op.field ≠ .card) → (applyOps ops r).Response.Card = r.Response.Card) ∧
    ((∀ op ∈ ops, op.field ≠ .reprompt) →
      (applyOps ops r).Response.Reprompt = r.Response.Reprompt) ∧
    ((∀ op ∈ ops, op.field ≠ .shouldEndSession) →
      (applyOps ops r).Response.ShouldEndSession = r.Response.ShouldEndSession) ∧
    ((∀ op ∈ ops, op.field ≠ .directives) →
      (applyOps ops r).Response.Directives = r.Response.Directives) := by
  induction ops with
  | nil => intro r; exact ⟨rfl, rfl, rfl, fun _ => rfl, fun _ => rfl, fun _ => rfl, fun _ => rfl,
      fun _ => rfl⟩
  | cons op ops ih =>
    intro r
    obtain ⟨h1, h2, h3, h4, h5, h6, h7, h8⟩ := ih (op.apply r)
    obtain ⟨f1, f2, f3, f4, f5, f6, f7, f8⟩ := apply_frame op r
    have hstep : applyOps (op :: ops) r = applyOps ops (op.apply r) := rfl
    rw [hstep]
    refine ⟨h1.trans f1, h2.trans f2, h3.trans f3, ?_, ?_, ?_, ?_, ?_⟩
    · intro h
      exact (h4 fun o ho => h o (List.mem_cons_of_mem _ ho)).trans (f4 (h op (List.mem_cons_self _ _)))
    · intro h
      exact (h5 fun o ho => h o (List.mem_cons_of_mem _ ho)).trans (f5 (h op (List.mem_cons_self _ _)))
    · intro h
      exact (h6 fun o ho => h o (List.mem_cons_of_mem _ ho)).trans (f6 (h op (List.mem_cons_self _ _)))
    · intro h
      exact (h7 fun o ho => h o (List.mem_cons_of_mem _ ho)).trans (f7 (h op (List.mem_cons_self _ _)))
    · intro h
      exact (h8 fun o ho => h o (List.mem_cons_of_mem _ ho)).trans (f8 (h op (List.mem_cons_self _ _)))

/-- C16: a setter replaces the whole payload. `OutputSpeech(a)` then
`OutputSpeechSSML(b)` leaves the response that `OutputSpeechSSML(b)` alone
leaves, with an empty `Text`; `OutputSpeechSSML(a)` then `OutputSpeech(b)` leaves
the response of `OutputSpeech(b)`. For any two calls that assign the same field,
be it output speech, card, reprompt or the end-session flag, the second call
after the first leaves the response the second call alone leaves; so calling a
setter twice equals calling it once with the later arguments. -/
theorem setters_overwrite (r : EchoResponse) (a b : GoString) :
    (r.OutputSpeech a).OutputSpeechSSML b = r.OutputSpeechSSML b ∧
    ((r.OutputSpeech a).OutputSpeechSSML b).Response.OutputSpeech =
      some { Type_ := lit "SSML", SSML := b, Text := [] } ∧
    (r.OutputSpeechSSML a).OutputSpeech b = r.OutputSpeech b ∧
    (r.OutputSpeech a).OutputSpeech b = r.OutputSpeech b ∧
    (r.OutputSpeechSSML a).OutputSpeechSSML b = r.OutputSpeechSSML b ∧
    (r.Reprompt a).RepromptSSML b = r.RepromptSSML b ∧
    (r.RepromptSSML a).Reprompt b = r.Reprompt b ∧
    (∀ title content smallImg largeImg,
      (r.SimpleCard a b).StandardCard title content smallImg largeImg =
        r.StandardCard title content smallImg largeImg ∧
      (r.StandardCard title content smallImg largeImg).SimpleCard a b = r.SimpleCard a b ∧
      (r.StandardCard title content smallImg largeImg).LinkAccountCard = r.LinkAccountCard ∧
      (r.StandardCard a b a b).StandardCard title content smallImg largeImg =
        r.StandardCard title content smallImg largeImg) ∧
    (∀ op1 op2 : BuilderOp, op1.field = op2.field → op2.field ≠ .directives →
      op2.apply (op1.apply r) = op2.apply r) :=
  ⟨rfl, rfl, rfl, rfl, rfl, rfl, rfl, fun _ _ _ _ => ⟨rfl, rfl, rfl, rfl⟩,
   fun op1 op2 h1 h2 => apply_overwrite op1 op2 r h1 h2⟩

/-- C16 on a standard card with both images followed by one with neither: no
image URL of the first card is left. -/
theorem setters_overwrite_witness :
    ((NewEchoResponse.StandardCard (lit "t") (lit "c") (lit "s") (lit "l")).StandardCard
        (lit "u") (lit "d") [] []).Response.Card =
      some { Type_ := lit "Standard", Title := lit "u", Content := lit "d" } := by
  have h := (setters_overwrite NewEchoResponse [] []).2.2.2.2.2.2.2.2
    (.standardCard (lit "t") (lit "c") (lit "s") (lit "l")) (.standardCard (lit "u") (lit "d") [] [])
    rfl (by decide)
  exact congrArg (fun x => x.Response.Card) h

/-- C20: every mutation method leaves the version, the session attributes and
the can-fulfill payload as they were, and every field of the response body other
than the one it assigns: output speech for the speech setters, card for the card
setters, reprompt for the reprompt setters, the flag for `EndSession`, the
directive slice for the four directive methods. Hence a response built from
`NewEchoResponse()` without a call of `EndSession` has the flag present and
true, version `1.0` and the empty session-attribute map. -/
theorem builder_frame :
    (∀ (op : BuilderOp) (r : EchoResponse),
      (op.apply r).Version = r.Version ∧
      (op.apply r).SessionAttributes = r.SessionAttributes ∧
      (op.apply r).Response.CanFulfillIntent = r.Response.CanFulfillIntent ∧
      (op.field ≠ .outputSpeech →
        (op.apply r).Response.OutputSpeech = r.Response.OutputSpeech) ∧
      (op.field ≠ .card → (op.apply r).Response.Card = r.Response.Card) ∧
      (op.field ≠ .reprompt → (op.apply r).Response.Reprompt = r.Response.Reprompt) ∧
      (op.field ≠ .shouldEndSession →
        (op.apply r).Response.ShouldEndSession = r.Response.ShouldEndSession) ∧
      (op.field ≠ .directives → (op.apply r).Response.Directives = r.Response.Directives)) ∧
    (∀ ops : List BuilderOp,
      (build ops).Version = lit "1.0" ∧
      (build ops).SessionAttributes = some [] ∧
      ((∀ op ∈ ops, op.field ≠ .shouldEndSession) →
        (build ops).Response.ShouldEndSession = some true)) := by
  refine ⟨apply_frame, fun ops => ?_⟩
  obtain ⟨h1, h2, _, _, _, _, h7, _⟩ := applyOps_frame ops NewEchoResponse
  exact ⟨h1, h2, fun h => h7 h⟩

/-- C20 on a response built by a speech setter, a card setter, a reprompt
setter and two directive methods: the flag is still present and true. -/
theorem builder_frame_witness :
    (build [.outputSpeech (lit "hi"), .standardCard (lit "t") (lit "c") [] [],
      .repromptSSML (lit "again"), .audioPlayerStop,
      .videoAppLaunch (lit "u") [] []]).Response.ShouldEndSession = some true :=
  (builder_frame.2 _).2.2 (by decide)

/-! ## Responses built from `NewEchoResponse` -/

theorem member?_none_iff (j : JSON) (k : GoString) : j.member? k = none ↔ k ∉ j.keys := by
  cases j with
  | obj ms =>
    have h := lookup_isSome_iff ms k
    simp only [JSON.member?, JSON.keys]
    cases hl : ms.lookup k with
    | none =>
      rw [hl] at h
      exact ⟨fun _ hk => Bool.noConfusion (h.mpr hk), fun _ => rfl⟩
    | some v =>
      rw [hl] at h
      exact ⟨fun h2 => Option.noConfusion h2, fun h2 => absurd (h.mp rfl) h2⟩
  | null => simp [JSON.member?, JSON.keys]
  | bool b => simp [JSON.member?, JSON.keys]
  | num n => simp [JSON.member?, JSON.keys]
  | str s => simp [JSON.member?, JSON.keys]
  | arr l => simp [JSON.member?, JSON.keys]

theorem mapM_marshalMap_ok (ds : List Directive)
    (h : ∀ d ∈ ds, ∃ j, marshalMap d = .ok j) :
    ∃ js, ds.mapM marshalMap = .ok js ∧ js.length = ds.length := by
  induction ds with
  | nil => exact ⟨[], rfl, rfl⟩
  | cons d ds ih =>
    obtain ⟨j, hj⟩ := h d (List.mem_cons_self _ _)
    obtain ⟨js, hjs, hlen⟩ := ih (fun x hx => h x (List.mem_cons_of_mem _ hx))
    refine ⟨j :: js, ?_, by simp [hlen]⟩
    rw [List.mapM_cons, hj, hjs]
    rfl

theorem directive_op_encodable (op : BuilderOp) (r : EchoResponse)
    (hop : op.field = .directives) :
    ∃ d j, (op.apply r).Response.Directives = some (r.Response.Directives.getD [] ++ [d]) ∧
      marshalMap d = .ok j := by
  cases op with
  | audioPlayerPlay behavior streamUrl token prevToken offsetMs =>
    cases prevToken with
    | none => exact ⟨_, _, rfl, rfl⟩
    | some p => exact ⟨_, _, rfl, rfl⟩
  | audioPlayerStop => exact ⟨_, _, rfl, rfl⟩
  | audioPlayerClearQueue clearBehavior => exact ⟨_, _, rfl, rfl⟩
  | videoAppLaunch streamUrl title subtitle =>
    by_cases h : title ≠ [] ∨ subtitle ≠ []
    · refine ⟨some [(lit "type", .str (lit "VideoApp.Launch")),
        (lit "videoItem", .map [(lit "source", .str streamUrl),
          (lit "metadata", .map [(lit "title", .str title), (lit "subtitle", .str subtitle)])])],
        _, ?_, rfl⟩
      simp only [BuilderOp.apply, EchoResponse.VideoAppLaunch, if_pos h]
      rfl
    · refine ⟨some [(lit "type", .str (lit "VideoApp.Launch")),
        (lit "videoItem", .map [(lit "source", .str streamUrl)])], _, ?_, rfl⟩
      simp only [BuilderOp.apply, EchoResponse.VideoAppLaunch, if_neg h]
      rfl
  | outputSpeech _ => cases hop
  | card _ _ => cases hop
  | outputSpeechSSML _ => cases hop
  | simpleCard _ _ => cases hop
  | standardCard _ _ _ _ => cases hop
  | linkAccountCard => cases hop
  | reprompt _ => cases hop
  | repromptSSML _ => cases hop
  | endSession _ => cases hop

theorem applyOps_directives (ops : List BuilderOp) :
    ∀ (r : EchoResponse) (ds : List Directive), r.Response.Directives = some ds →
      (∀ d ∈ ds, ∃ j, marshalMap d = .ok j) →
      ∃ ds2, (applyOps ops r).Response.Directives = some ds2 ∧
        (∀ d ∈ ds2, ∃ j, marshalMap d = .ok j) ∧
        ds2.length = ds.length + ops.countP (fun op => decide (op.field = .directives)) := by
  induction ops with
  | nil => intro r ds hds henc; exact ⟨ds, hds, henc, rfl⟩
  | cons op ops ih =>
    intro r ds hds henc
    have hstep : applyOps (op :: ops) r = applyOps ops (op.apply r) := rfl
    rw [hstep]
    by_cases hop : op.field = .directives
    · obtain ⟨d, j, hd, hj⟩ := directive_op_encodable op r hop
      rw [hds] at hd
      obtain ⟨ds2, h1, h2, h3⟩ := ih (op.apply r) (ds ++ [d]) hd (by
        intro x hx
        rcases List.mem_append.mp hx with hx | hx
        · exact henc x hx
        · rw [List.mem_singleton.mp hx]; exact ⟨j, hj⟩)
      refine ⟨ds2, h1, h2, ?_⟩
      rw [h3, List.countP_cons]
      simp [hop]
      omega
    · have hsame := (apply_frame op r).2.2.2.2.2.2.2 hop
      obtain ⟨ds2, h1, h2, h3⟩ := ih (op.apply r) ds (hsame.trans hds) henc
      refine ⟨ds2, h1, h2, ?_⟩
      rw [h3, List.countP_cons]
      simp [hop]

/-- C17: for every response built from `NewEchoResponse()` by mutation method
calls, `String()` succeeds and the `response` object of the document has the
member `directives` with an array as value, one element for each directive
method called, so the empty array when none was called. The document has no
`sessionAttributes` and the `response` object no `canFulfillIntent`, which no
method sets; `outputSpeech`, `card` and `reprompt` are absent when no setter of
that field was called. -/
theorem build_serialized (ops : List BuilderOp) :
    ∃ j body dirs, (build ops).String = .ok j ∧
      j.member? (lit "response") = some body ∧
      body.member? (lit "directives") = some (.arr dirs) ∧
      dirs.length = ops.countP (fun op => decide (op.field = .directives)) ∧
      ((∀ op ∈ ops, op.field ≠ .directives) → dirs = []) ∧
      lit "sessionAttributes" ∉ j.keys ∧
      lit "canFulfillIntent" ∉ body.keys ∧
      ((∀ op ∈ ops, op.field ≠ .outputSpeech) → lit "outputSpeech" ∉ body.keys) ∧
      ((∀ op ∈ ops, op.field ≠ .card) → lit "card" ∉ body.keys) ∧
      ((∀ op ∈ ops, op.field ≠ .reprompt) → lit "reprompt" ∉ body.keys) := by
  obtain ⟨_, hattrs, hcan, hspeech, hcard, hrep, _, _⟩ := applyOps_frame ops NewEchoResponse
  obtain ⟨ds, hds, henc, hlen⟩ := applyOps_directives ops NewEchoResponse [] rfl
    (fun d hd => absurd hd (List.not_mem_nil d))
  obtain ⟨js, hjs, hjlen⟩ := mapM_marshalMap_ok ds henc
  have hdirs : marshalDirectives (build ops).Response.Directives = .ok (.arr js) := by
    show marshalDirectives (applyOps ops NewEchoResponse).Response.Directives = _
    rw [hds]
    simp only [marshalDirectives, hjs]
    rfl
  have hbody : ∃ body, marshalBody (build ops).Response = .ok body := by
    unfold marshalBody
    rw [hdirs]
    exact ⟨_, rfl⟩
  obtain ⟨body, hbody⟩ := hbody
  have hj : ∃ j, (build ops).String = .ok j := by
    unfold EchoResponse.String Marshal
    rw [hbody]
    have h0 : (build ops).SessionAttributes.len = 0 := by
      show (applyOps ops NewEchoResponse).SessionAttributes.len = 0
      rw [hattrs]; rfl
    rw [if_pos h0]
    exact ⟨_, rfl⟩
  obtain ⟨j, hj⟩ := hj
  obtain ⟨_, ⟨body2, hbody2, hresp⟩, hnoattrs⟩ := String_members _ j hj
  have hb : body2 = body := by
    rw [hbody] at hbody2
    cases hbody2
    rfl
  subst hb
  obtain ⟨m1, m2, m3, _, ⟨dirs, hd1, hd2⟩, m6⟩ := marshalBody_members _ body2 hbody
  have hd : dirs = .arr js := by
    rw [hdirs] at hd1
    cases hd1
    rfl
  subst hd
  have hcount : js.length = ops.countP (fun op => decide (op.field = .directives)) := by
    rw [hjlen, hlen]; simp
  refine ⟨j, body2, js, hj, hresp, hd2, hcount, ?_, ?_, ?_, ?_, ?_, ?_⟩
  · intro hno
    have hz : ops.countP (fun op => decide (op.field = .directives)) = 0 := by
      rw [List.countP_eq_zero]
      intro op hop
      simpa using hno op hop
    exact List.length_eq_zero.mp (hcount.trans hz)
  · apply (member?_none_iff _ _).mp
    apply hnoattrs
    show (applyOps ops NewEchoResponse).SessionAttributes.len = 0
    rw [hattrs]; rfl
  · apply (member?_none_iff _ _).mp
    rw [m6]
    show Option.map _ (applyOps ops NewEchoResponse).Response.CanFulfillIntent = none
    rw [hcan]; rfl
  · intro hno
    apply (member?_none_iff _ _).mp
    rw [m1]
    show Option.map _ (applyOps ops NewEchoResponse).Response.OutputSpeech = none
    rw [hspeech hno]; rfl
  · intro hno
    apply (member?_none_iff _ _).mp
    rw [m2]
    show Option.map _ (applyOps ops NewEchoResponse).Response.Card = none
    rw [hcard hno]; rfl
  · intro hno
    apply (member?_none_iff _ _).mp
    rw [m3]
    show Option.map _ (applyOps ops NewEchoResponse).Response.Reprompt = none
    rw [hrep hno]; rfl

/-- C17 on the fresh response and on one with a card and a directive. -/
theorem build_serialized_witness :
    (build []).String = .ok (.obj [
      (lit "version", .str (lit "1.0")),
      (lit "response", .obj [
        (lit "shouldEndSession", .bool true),
        (lit "directives", .arr [])])]) ∧
    ∃ j body dirs, (build [.linkAccountCard, .audioPlayerStop]).String = .ok j ∧
      j.member? (lit "response") = some body ∧
      body.member? (lit "directives") = some (.arr dirs) ∧
      dirs.length = 1 ∧
      lit "outputSpeech" ∉ body.keys ∧
      lit "reprompt" ∉ body.keys := by
  refine ⟨rfl, ?_⟩
  obtain ⟨j, body, dirs, h1, h2, h3, h4, _, _, _, h8, _, h10⟩ :=
    build_serialized [.linkAccountCard, .audioPlayerStop]
  exact ⟨j, body, dirs, h1, h2, h3, h4, h8 (by decide), h10 (by decide)⟩

end Skillserver
